import Mathlib

/-!
PocketUAI front end: progress reconciliation and category averaging.

A shallow embedding of `src/pages/tracking.jsx` (the `Tracking` page) together with
the parts of `src/services/date.service.jsx` it calls, of the card list built by
`src/pages/plan.jsx`, of the drop handler of `src/components/dnd_cards.jsx`, of the
history page (`src/pages/history.jsx`, `src/components/historyForm.jsx`,
`src/components/historyCard.jsx`) and of the question index of
`src/components/newplanquestions.jsx`.

Modelling conventions
* JavaScript numbers are `JSNum`: a finite value is an exact rational, and the three
  IEEE special values are explicit constructors.  A result too large for a double is
  an infinity; rounding to the nearest double and the sign of zero are not modelled.
  Every sum, product and quotient of the code is taken with the operations of `JSNum`,
  and the theorems about computed numbers are stated in these operations.
* Month numbers and plan durations are integers (`Int`).
* A JavaScript array is a `List`; reading past its end yields `undefined`.
* `Array.prototype.sort` with a numeric comparator is a stable sort; it is embedded
  as insertion sort, which is stable and yields the same array.
* A JavaScript object used as a map is a function from property name to `Option`.
-/

namespace PocketUAI

/-! ## JavaScript values -/

/-- A JavaScript number: a finite value or one of the IEEE special values. -/
inductive JSNum where
  | fin (q : ℚ)
  | posInf
  | negInf
  | nan
  deriving DecidableEq

namespace JSNum

/-- The least magnitude that rounds to an infinity, `2^1024 - 2^970`. -/
def overflowBound : ℚ := ((2 ^ 1024 - 2 ^ 970 : Int) : ℚ)

/-- Whether a finite value lies within the range of the doubles. -/
def inRange (q : ℚ) : Bool := decide (-overflowBound < q) && decide (q < overflowBound)

/-- An exact result as a JavaScript number: an infinity when its magnitude reaches
`overflowBound`. -/
def ofExact (q : ℚ) : JSNum :=
  if overflowBound ≤ q then posInf
  else if q ≤ -overflowBound then negInf
  else fin q

/-- The JavaScript `+` on numbers.  The sum of two doubles overflows to an infinity; a
finite operand beyond the range of the doubles is no double, and the sum is then kept
as it is. -/
def add : JSNum → JSNum → JSNum
  | fin a, fin b => if inRange a && inRange b then ofExact (a + b) else fin (a + b)
  | nan, _ => nan
  | _, nan => nan
  | posInf, negInf => nan
  | negInf, posInf => nan
  | posInf, _ => posInf
  | _, posInf => posInf
  | negInf, _ => negInf
  | _, negInf => negInf

/-- The product of an infinity (positive when `pos`) with a finite factor. -/
def scaleInf (pos : Bool) (b : ℚ) : JSNum :=
  if b = 0 then nan
  else if (0 < b) = pos then posInf else negInf

/-- The JavaScript `*` on numbers. -/
def mul : JSNum → JSNum → JSNum
  | fin a, fin b => ofExact (a * b)
  | nan, _ => nan
  | _, nan => nan
  | posInf, fin b => scaleInf true b
  | negInf, fin b => scaleInf false b
  | fin a, posInf => scaleInf true a
  | fin a, negInf => scaleInf false a
  | posInf, posInf => posInf
  | negInf, negInf => posInf
  | posInf, negInf => negInf
  | negInf, posInf => negInf

/-- The JavaScript `/` on numbers; a zero divisor is taken to be `+0`. -/
def div : JSNum → JSNum → JSNum
  | fin a, fin b =>
    if b = 0 then
      (if a = 0 then nan else if 0 < a then posInf else negInf)
    else ofExact (a / b)
  | nan, _ => nan
  | _, nan => nan
  | fin _, posInf => fin 0
  | fin _, negInf => fin 0
  | posInf, fin b => if 0 ≤ b then posInf else negInf
  | negInf, fin b => if 0 ≤ b then negInf else posInf
  | posInf, posInf => nan
  | posInf, negInf => nan
  | negInf, posInf => nan
  | negInf, negInf => nan

instance : Add JSNum := ⟨add⟩
instance : Mul JSNum := ⟨mul⟩
instance : Div JSNum := ⟨div⟩

/-- An integer loop counter or month number seen as a JavaScript number. -/
def ofInt (i : Int) : JSNum := fin (i : ℚ)

/-- Whether the number is finite (neither `NaN` nor an infinity). -/
def isFinite : JSNum → Bool
  | fin _ => true
  | _ => false

end JSNum

/-- An element read from a chart data array: a number, `null`, or `undefined`. -/
inductive Cell where
  | num (x : JSNum)
  | null
  | undefined
  deriving DecidableEq

/-- The `ToNumber` coercion applied by arithmetic operators. -/
def Cell.toNumber : Cell → JSNum
  | Cell.num x => x
  | Cell.null => JSNum.fin 0
  | Cell.undefined => JSNum.nan

/-- The element access `xs[i]` of a numeric array: `undefined` outside the array. -/
def jsIndex (xs : List JSNum) (i : Nat) : Cell :=
  match xs[i]? with
  | some v => Cell.num v
  | none => Cell.undefined

/-! ## `getExpectedPoints` -/

/-- The object `{ months, progress }` returned by `getExpectedPoints`. -/
structure ExpectedPoints where
  months : List Int
  progress : List JSNum

/-- The `for (let i = 0; i <= duration; i++)` loop of `getExpectedPoints`, started at
counter `i` with the two arrays built so far.  `fuel` bounds the number of iterations. -/
def getExpectedPoints.loop (increase initialProgress : JSNum) (duration : Int) :
    Nat → Int → List Int × List JSNum → List Int × List JSNum
  | 0, _, acc => acc
  | fuel + 1, i, (months, progress) =>
    if i ≤ duration then
      getExpectedPoints.loop increase initialProgress duration fuel (i + 1)
        (months ++ [i], progress ++ [increase * JSNum.ofInt i + initialProgress])
    else (months, progress)

/-- The function `getExpectedPoints(increase, initialProgress, duration)`.  The loop
runs `duration + 1` times (not at all for a negative duration), which is the fuel given. -/
def getExpectedPoints (increase initialProgress : JSNum) (duration : Int) : ExpectedPoints :=
  let r := getExpectedPoints.loop increase initialProgress duration (duration + 1).toNat 0 ([], [])
  { months := r.1, progress := r.2 }

/-! ## Data exchanged with the services -/

/-- One `{ type, expense }` record of a history entry or of the plan. -/
structure Expense where
  type : String
  expense : ℚ
  deriving DecidableEq

/-- One entry of `historyData.history`. -/
structure HistoryEntry where
  month : Int
  saving : ℚ
  expenses : List Expense
  deriving DecidableEq

/-- The value stored in `financialPlan.date`, as `DateService.convertToJSDate` sees it. -/
inductive TimestampArg where
  | null
  | undefined
  | number (n : ℚ)
  | timestamp (seconds nanoseconds : ℚ)
  | object (seconds nanoseconds : Option ℚ)
  deriving DecidableEq

/-- The `Date` that a Firebase `Timestamp(seconds, nanoseconds)` converts to.  The
conversion is done by the Firebase library and is kept symbolic. -/
structure JSDate where
  seconds : ℚ
  nanoseconds : ℚ
  deriving DecidableEq

/-- The payload `planData.financialPlan`. -/
structure FinancialPlan where
  date : TimestampArg
  duration : Int
  goal : ℚ
  goal_name : String
  expenses : List Expense

/-- The payload `userData.user`. -/
structure User where
  income : ℚ

/-- Response of `financialPlanService.getPlan`; a missing payload is `none`. -/
structure PlanResponse where
  status : String
  message : String
  financialPlan : Option FinancialPlan

/-- Response of `historyService.getHistory`; a missing payload is `none`. -/
structure HistoryResponse where
  status : String
  message : String
  history : Option (List HistoryEntry)

/-- Response of `trackingService.getTracking`. -/
structure TrackingResponse where
  status : String
  message : String

/-- Response of `userService.getUser`; a missing payload is `none`. -/
structure UserResponse where
  status : String
  message : String
  user : Option User

/-- The request sent to `modelsService.get_points_regression`. -/
structure RegressionRequest where
  months : List Int
  progress : List JSNum
  duration : Int

/-- The payload `regressionData.data` of a projection response. -/
structure RegressionData where
  all_months : List Int
  projection : List Cell

/-- Response of `modelsService.get_points_regression`; a missing payload is `none`. -/
structure RegressionResponse where
  status : String
  message : String
  data : Option RegressionData

/-- The external collaborators of the page, for the signed-in user.  `monthYear d n`
stands for `DateService.getMonthYear` of the date `d` moved forward by `n` months with
`Date.prototype.setMonth`; calendar arithmetic is not modelled. -/
structure Services where
  getPlan : PlanResponse
  getHistory : HistoryResponse
  getTracking : TrackingResponse
  getUser : UserResponse
  get_points_regression : RegressionRequest → RegressionResponse
  monthYear : JSDate → Int → String

/-! ## `DateService.convertToJSDate` -/

/-- The constructor `new Timestamp(seconds, nanoseconds)` of the Firebase library, which
is not part of the repository: it throws when the nanoseconds are outside `0 .. 1e9 - 1`
or the seconds are outside the years 0001 to 9999, and builds the timestamp otherwise. -/
def Timestamp.new (seconds nanoseconds : ℚ) : Except String JSDate :=
  if nanoseconds < 0 then Except.error "Timestamp nanoseconds out of range"
  else if nanoseconds ≥ 1000000000 then Except.error "Timestamp nanoseconds out of range"
  else if seconds < -62135596800 then Except.error "Timestamp seconds out of range"
  else if seconds ≥ 253402300800 then Except.error "Timestamp seconds out of range"
  else Except.ok { seconds := seconds, nanoseconds := nanoseconds }

/-- The function `DateService.convertToJSDate`: `Except.error` is a thrown `Error`,
`none` is the returned `null`.  A `Timestamp` instance converts with `toDate()`; an
object with both fields goes through the constructor first. -/
def convertToJSDate : TimestampArg → Except String (Option JSDate)
  | TimestampArg.null => Except.ok none
  | TimestampArg.undefined => Except.ok none
  | TimestampArg.number n =>
    if n = 0 then Except.ok none else Except.error "Invalid timestamp format"
  | TimestampArg.timestamp s ns => Except.ok (some { seconds := s, nanoseconds := ns })
  | TimestampArg.object (some s) (some ns) =>
    match Timestamp.new s ns with
    | Except.ok d => Except.ok (some d)
    | Except.error e => Except.error e
  | TimestampArg.object _ _ => Except.error "Invalid timestamp format"

/-! ## `calculateAverageExpenses` -/

/-- The enumerated category list of `calculateAverageExpenses`. -/
def categories : List String :=
  ["housing", "food", "health", "transportation", "university", "non-essential"]

/-- The two accumulator objects `categorySums` and `categoryCounts`, keyed by category. -/
structure CategoryTotals where
  categorySums : String → JSNum
  categoryCounts : String → Nat

/-- One `{ label, value }` item of an expense or income distribution. -/
structure LabelledValue where
  label : String
  value : JSNum
  deriving DecidableEq

/-- The body of the inner `forEach` of `calculateAverageExpenses`, for one record. -/
def calculateAverageExpenses.addRecord (acc : CategoryTotals) (r : Expense) : CategoryTotals :=
  if r.type ∈ categories then
    { categorySums := fun c => if c = r.type then acc.categorySums c + JSNum.fin r.expense
                               else acc.categorySums c
      categoryCounts := fun c => if c = r.type then acc.categoryCounts c + 1
                                 else acc.categoryCounts c }
  else acc

/-- The sums and counts after both `forEach` loops of `calculateAverageExpenses`. -/
def calculateAverageExpenses.totals (history : List HistoryEntry) : CategoryTotals :=
  history.foldl (fun acc entry => entry.expenses.foldl calculateAverageExpenses.addRecord acc)
    { categorySums := fun _ => JSNum.fin 0, categoryCounts := fun _ => 0 }

/-- The function `calculateAverageExpenses(historyData, income)`, given
`historyData.history`. -/
def calculateAverageExpenses (history : List HistoryEntry) (income : ℚ) : List LabelledValue :=
  let t := calculateAverageExpenses.totals history
  categories.map fun category =>
    { label := category
      value :=
        if t.categoryCounts category > 0 then
          t.categorySums category / JSNum.fin (t.categoryCounts category)
            / JSNum.fin income * JSNum.fin 100
        else JSNum.fin 0 }

/-! ## The chart built by `load_userdata` -/

/-- One dataset of the chart; the styling fields are constants and are left out. -/
structure Dataset where
  label : String
  data : List Cell
  deriving DecidableEq

/-- The object handed to `setChartData`. -/
structure ChartData where
  labels : List Int
  datasets : List Dataset
  deriving DecidableEq

/-- The arrays filled by the `forEach` over the sorted history. -/
structure Accumulated where
  months : List Int
  progress : List JSNum
  a_saving : JSNum

/-- The sort `historyData.history.sort((a, b) => a.month - b.month)`. -/
def sortHistory (history : List HistoryEntry) : List HistoryEntry :=
  history.insertionSort (fun a b => a.month ≤ b.month)

/-- The loop `historyData.history.forEach(({ month, saving }) => ...)`. -/
def accumulate (history : List HistoryEntry) : Accumulated :=
  history.foldl
    (fun acc e =>
      { months := acc.months ++ [e.month]
        progress := acc.progress ++ [acc.a_saving + JSNum.fin e.saving]
        a_saving := acc.a_saving + JSNum.fin e.saving })
    { months := [], progress := [], a_saving := JSNum.fin 0 }

/-- The expression `Array.from(new Set(xs))`: the first occurrence of each value, in order. -/
def arrayFromSet : List Int → List Int
  | [] => []
  | x :: xs => x :: (arrayFromSet xs).filter (fun y => decide (y ≠ x))

/-- The numeric sort `.sort((a, b) => a - b)`. -/
def sortNumeric (xs : List Int) : List Int :=
  xs.insertionSort (fun a b => a ≤ b)

/-- The call `xs.indexOf(x)`: the first index holding `x`, or `-1`. -/
def indexOf (xs : List Int) (x : Int) : Int :=
  if x ∈ xs then (xs.indexOf x : Int) else -1

/-- The array `allMonths`. -/
def allMonths (months : List Int) (projectedPoints : RegressionData)
    (expectedPoints : ExpectedPoints) : List Int :=
  sortNumeric (arrayFromSet (months ++ projectedPoints.all_months ++ expectedPoints.months))

/-- The array `completeProgress`. -/
def completeProgress (allMonths months : List Int) (progress : List JSNum) : List Cell :=
  allMonths.map fun month =>
    let monthIndex := indexOf months month
    if monthIndex ≠ -1 then jsIndex progress monthIndex.toNat else Cell.null

/-- The object `chartData` assembled from `allMonths` on. -/
def buildChart (months : List Int) (progress : List JSNum) (projectedPoints : RegressionData)
    (expectedPoints : ExpectedPoints) (goal : ℚ) : ChartData :=
  let allMonths := allMonths months projectedPoints expectedPoints
  { labels := allMonths
    datasets :=
      [ { label := "Actual Progress", data := completeProgress allMonths months progress },
        { label := "Savings Trend", data := projectedPoints.projection },
        { label := "Expected Progress", data := expectedPoints.progress.map Cell.num },
        { label := "Goal", data := allMonths.map fun _ => Cell.num (JSNum.fin goal) } ] }

/-! ## The page state and `load_userdata` -/

/-- One item of the `activities` list. -/
structure Activity where
  id : Nat
  amount : ℚ
  goal : String
  date : String
  deriving DecidableEq

/-- The object handed to `setGoalAdvances`. -/
structure GoalAdvances where
  saved : JSNum
  goal : ℚ
  goal_name : String
  deriving DecidableEq

/-- The React state of the `Tracking` page, plus the toasts shown so far. -/
structure PageState where
  error : Option String
  message : Option String
  chartData : ChartData
  activities : List Activity
  expenses : List LabelledValue
  incomes : List LabelledValue
  goalAdvances : Option GoalAdvances
  loading : Bool
  toasts : List String
  deriving DecidableEq

/-- The state of the page when it is mounted. -/
def initialState : PageState :=
  { error := none
    message := none
    chartData := { labels := [], datasets := [{ label := "Savings Trend", data := [] }] }
    activities := []
    expenses := []
    incomes := []
    goalAdvances := none
    loading := true
    toasts := [] }

/-- The callback of `historyData.history.map((entry, index) => ...)` for the activities;
`none` is a thrown exception (an invalid timestamp, or `setMonth` called on `null`). -/
def activityOf (monthYear : JSDate → Int → String) (plan : FinancialPlan)
    (entry : HistoryEntry) (index : Nat) : Option Activity :=
  match convertToJSDate plan.date with
  | Except.ok (some date) =>
    some { id := index + 1, amount := entry.saving, goal := plan.goal_name,
           date := monthYear date entry.month }
  | _ => none

/-- The activities list; `none` when a callback throws. -/
def activitiesOf (monthYear : JSDate → Int → String) (plan : FinancialPlan) :
    List HistoryEntry → Nat → Option (List Activity)
  | [], _ => some []
  | entry :: rest, index =>
    match activityOf monthYear plan entry index with
    | none => none
    | some a =>
      match activitiesOf monthYear plan rest (index + 1) with
      | none => none
      | some as => some (a :: as)

/-- The `try` block of `load_userdata`.  `Except.ok` is normal completion (also by
`return`), `Except.error` is a thrown exception; both carry the state reached. -/
def load_userdata.tryBlock (sv : Services) (s : PageState) : Except PageState PageState :=
  let planData := sv.getPlan
  if planData.status ≠ "success" then
    Except.ok { s with error := some planData.status, message := some planData.message }
  else
  let historyData := sv.getHistory
  if historyData.status ≠ "success" ∧ historyData.status ≠ "not_found" then
    Except.ok { s with error := some historyData.status, message := some historyData.message }
  else
  let trackingData := sv.getTracking
  if trackingData.status ≠ "success" then
    Except.ok { s with error := some trackingData.status, message := some trackingData.message }
  else
  let userData := sv.getUser
  if userData.status ≠ "success" then
    Except.ok { s with error := some userData.status, message := some userData.message }
  else
  match historyData.history with
  | none => Except.error s
  | some history0 =>
  let history := sortHistory history0
  let acc := accumulate history
  match planData.financialPlan with
  | none => Except.error s
  | some plan =>
  let duration := plan.duration
  let goal := plan.goal
  let regressionData := sv.get_points_regression
    { months := acc.months, progress := acc.progress, duration := duration }
  match plan.expenses.find? (fun expense => expense.type == "savings"), userData.user with
  | some _, none => Except.error s
  | savingsExpense, user =>
  let increase : JSNum :=
    match savingsExpense, user with
    | some e, some u => JSNum.fin u.income * JSNum.fin e.expense / JSNum.fin 100
    | _, _ => JSNum.fin 0
  let expectedPoints := getExpectedPoints increase (jsIndex acc.progress 0).toNumber duration
  let s1 : PageState :=
    if regressionData.status ≠ "success" then
      { s with toasts := s.toasts ++ [regressionData.message] }
    else s
  let projectedPoints : Option RegressionData :=
    if regressionData.status ≠ "success" then none else regressionData.data
  match projectedPoints with
  | none => Except.error s1
  | some projected =>
  let s2 : PageState :=
    { s1 with chartData := buildChart acc.months acc.progress projected expectedPoints goal }
  match user with
  | none => Except.error s2
  | some u =>
  let s3 : PageState := { s2 with expenses := calculateAverageExpenses history u.income }
  match activitiesOf sv.monthYear plan history 0 with
  | none => Except.error s3
  | some activities =>
  Except.ok
    { s3 with
      activities := activities
      incomes := [{ label := "Income", value := JSNum.fin u.income / JSNum.fin u.income * JSNum.fin 100 }]
      goalAdvances := some { saved := acc.a_saving, goal := plan.goal, goal_name := plan.goal_name } }

/-- The function `load_userdata`: the `try` block, the `catch` handler and `finally`. -/
def load_userdata (sv : Services) (s : PageState) : PageState :=
  let s1 :=
    match load_userdata.tryBlock sv s with
    | Except.ok s1 => s1
    | Except.error s1 =>
      { s1 with error := some "fetch_error"
                message := some "An error occurred while fetching data." }
  { s1 with loading := false }

/-! ## Vocabulary for the statements -/

/-- The four data fetches of `load_userdata` succeed and carry the payloads `plan`,
`history` and `u`. -/
def FetchesSucceed (sv : Services) (plan : FinancialPlan) (history : List HistoryEntry)
    (u : User) : Prop :=
  sv.getPlan.status = "success" ∧ sv.getPlan.financialPlan = some plan ∧
  (sv.getHistory.status = "success" ∨ sv.getHistory.status = "not_found") ∧
  sv.getHistory.history = some history ∧
  sv.getTracking.status = "success" ∧
  sv.getUser.status = "success" ∧ sv.getUser.user = some u

/-- The request `load_userdata` sends to the projection provider. -/
def regressionRequest (plan : FinancialPlan) (history : List HistoryEntry) : RegressionRequest :=
  { months := (accumulate (sortHistory history)).months
    progress := (accumulate (sortHistory history)).progress
    duration := plan.duration }

/-- The projection provider answers the request of `load_userdata` with status
`"success"` and the payload `proj`. -/
def ProjectionSucceeds (sv : Services) (plan : FinancialPlan) (history : List HistoryEntry)
    (proj : RegressionData) : Prop :=
  (sv.get_points_regression (regressionRequest plan history)).status = "success" ∧
  (sv.get_points_regression (regressionRequest plan history)).data = some proj

/-- The projection provider answers the request of `load_userdata` with a status other
than `"success"`. -/
def ProjectionFails (sv : Services) (plan : FinancialPlan) (history : List HistoryEntry) : Prop :=
  (sv.get_points_regression (regressionRequest plan history)).status ≠ "success"

/-- The monthly increase `load_userdata` passes to `getExpectedPoints`. -/
def expectedIncrease (plan : FinancialPlan) (u : User) : JSNum :=
  match plan.expenses.find? (fun expense => expense.type == "savings") with
  | some e => JSNum.fin u.income * JSNum.fin e.expense / JSNum.fin 100
  | none => JSNum.fin 0

/-- The expected points `load_userdata` computes for a plan, history and user. -/
def expectedPointsFor (plan : FinancialPlan) (history : List HistoryEntry) (u : User) :
    ExpectedPoints :=
  getExpectedPoints (expectedIncrease plan u)
    (jsIndex (accumulate (sortHistory history)).progress 0).toNumber plan.duration

/-- The data array of the dataset with the given label, if the chart has one. -/
def ChartData.series (c : ChartData) (label : String) : Option (List Cell) :=
  (c.datasets.find? (fun d => d.label == label)).map Dataset.data

/-- The amounts `xs` added to `a` one after the other with the JavaScript `+`. -/
def JSNum.sumFrom (a : JSNum) (xs : List ℚ) : JSNum :=
  xs.foldl (fun acc x => acc + JSNum.fin x) a

/-- The running total `0 + x1 + x2 + ...` of the amounts, added from the left with the
JavaScript `+`. -/
def runningTotal (xs : List ℚ) : JSNum :=
  JSNum.sumFrom (JSNum.fin 0) xs

/-- The cumulative saving recorded for `month`: the savings of all entries up to and
including that month, added in the order of their months (entries of the same month in
the order of the history). -/
def cumulativeSaving (history : List HistoryEntry) (month : Int) : JSNum :=
  runningTotal
    (((sortHistory history).filter (fun e => decide (e.month ≤ month))).map HistoryEntry.saving)

/-! ## Sample inputs -/

/-- A three-month plan that reserves 20 percent of the income for savings. -/
def samplePlan : FinancialPlan :=
  { date := TimestampArg.timestamp 1700000000 0
    duration := 3
    goal := 1000
    goal_name := "Laptop"
    expenses := [{ type := "housing", expense := 50 }, { type := "savings", expense := 20 }] }

/-- Two history entries, as stored by the history page, not in month order. -/
def sampleHistory : List HistoryEntry :=
  [ { month := 2, saving := 50, expenses := [{ type := "food", expense := 300 }] },
    { month := 1, saving := 100, expenses := [{ type := "food", expense := 100 }] } ]

/-- A user with a monthly income of 1000. -/
def sampleUser : User := { income := 1000 }

/-- Services that deliver the sample plan, history and user, and answer every
projection request with `reg`. -/
def sampleServices (reg : RegressionResponse) : Services :=
  { getPlan := { status := "success", message := "", financialPlan := some samplePlan }
    getHistory := { status := "success", message := "", history := some sampleHistory }
    getTracking := { status := "success", message := "" }
    getUser := { status := "success", message := "", user := some sampleUser }
    get_points_regression := fun _ => reg
    monthYear := fun _ _ => "" }

/-- A projection payload covering exactly the months of the plan. -/
def projectionWithinPlan : RegressionData :=
  { all_months := [0, 1, 2, 3]
    projection := [Cell.null, Cell.num (JSNum.fin 100), Cell.num (JSNum.fin 150),
      Cell.num (JSNum.fin 200)] }

/-- A projection payload that runs two months past the end of the plan. -/
def projectionBeyondPlan : RegressionData :=
  { all_months := [0, 1, 2, 3, 4, 5]
    projection := [Cell.null, Cell.num (JSNum.fin 100), Cell.num (JSNum.fin 150),
      Cell.num (JSNum.fin 200), Cell.num (JSNum.fin 250), Cell.num (JSNum.fin 300)] }

/-- A successful projection response with the given payload. -/
def projectionOk (data : RegressionData) : RegressionResponse :=
  { status := "success", message := "", data := some data }

/-- The response `get_points_regression` returns when the request fails on the network. -/
def projectionNetworkError : RegressionResponse :=
  { status := "network_error"
    message := "A network error occurred. Please check your connection."
    data := none }

/-- A projection payload that covers only the months of the history. -/
def projectionHistoryOnly : RegressionData :=
  { all_months := [1, 2]
    projection := [Cell.num (JSNum.fin 100), Cell.num (JSNum.fin 150)] }

/-- A projection payload whose months start one month before the plan. -/
def projectionFromMinusOne : RegressionData :=
  { all_months := [-1, 0, 1, 2, 3]
    projection := [Cell.null, Cell.null, Cell.num (JSNum.fin 100), Cell.num (JSNum.fin 150),
      Cell.num (JSNum.fin 200)] }

/-- The dataset labels of a chart, in order. -/
def ChartData.seriesNames (c : ChartData) : List String :=
  c.datasets.map Dataset.label

/-! ## Vocabulary for the category averages -/

/-- The value a distribution reports for a category, if it lists the category. -/
def valueOf (distribution : List LabelledValue) (category : String) : Option JSNum :=
  (distribution.find? (fun item => item.label == category)).map LabelledValue.value

/-- The records of one entry that belong to a category. -/
def recordsOfEntry (e : HistoryEntry) (category : String) : List Expense :=
  e.expenses.filter (fun r => decide (r.type = category))

/-- The sum of the amounts of all records of a category across all entries: the amounts
are added to 0 with the JavaScript `+`, entry after entry and record after record. -/
def categoryAmount (history : List HistoryEntry) (category : String) : JSNum :=
  runningTotal ((history.flatMap (fun e => recordsOfEntry e category)).map Expense.expense)

/-- The number of records of a category across all entries. -/
def categoryRecords (history : List HistoryEntry) (category : String) : Nat :=
  (history.map (fun e => (recordsOfEntry e category).length)).sum

/-- The number of entries that contain at least one record of a category. -/
def entriesContaining (history : List HistoryEntry) (category : String) : Nat :=
  (history.filter (fun e => decide (recordsOfEntry e category ≠ []))).length

/-- One history entry that holds two records of the category food. -/
def historyWithRepeatedCategory : List HistoryEntry :=
  [ { month := 1, saving := 0,
      expenses := [{ type := "food", expense := 100 }, { type := "food", expense := 300 }] } ]

/-! ## The expense cards of the plan page: `plan.jsx` and `dnd_cards.jsx` -/

/-- One card of `cardsList.actions`.  The icon is recorded by the name of its component. -/
structure Action where
  id : String
  icon : String
  amount : JSNum
  category : String
  deriving DecidableEq

/-- One area of `cardsList.areas`: its own `id` and the ordered list `actionIds`. -/
structure Area where
  id : String
  actionIds : List String
  deriving DecidableEq

/-- The object `cardsList`, which is the state of `DndAreaExpenses`.  The two objects
`actions` and `areas` are maps from property name to value; `none` is a missing property. -/
structure AllocationState where
  actions : String → Option Action
  areas : String → Option Area
  areaOrder : List String

/-- The `source` and `destination` of a drop result: a droppable id and an index. -/
structure DraggableLocation where
  droppableId : String
  index : Int
  deriving DecidableEq

/-- The argument of `onDragEnd`; a drop outside every area has no destination. -/
structure DropResult where
  destination : Option DraggableLocation
  source : DraggableLocation
  draggableId : String
  deriving DecidableEq

/-- The call `xs.splice(start, deleteCount, ...items)`, giving the array afterwards.  A
negative `start` counts from the end, and both `start` and `deleteCount` are clamped to
the array. -/
def splice (xs : List String) (start : Int) (deleteCount : Nat) (items : List String) :
    List String :=
  let len := xs.length
  let actualStart : Nat := if start < 0 then ((len : Int) + start).toNat else min start.toNat len
  let actualDeleteCount : Nat := min deleteCount (len - actualStart)
  xs.take actualStart ++ items ++ xs.drop (actualStart + actualDeleteCount)

/-- The handler `onDragEnd(result)` of `DndAreaExpenses`.  `Except.ok` carries the state
of the component after the call (the state itself when the handler returns early),
`Except.error` is the `TypeError` thrown when `state.areas` has no source area. -/
def onDragEnd (state : AllocationState) (result : DropResult) : Except String AllocationState :=
  match result.destination with
  | none => Except.ok state
  | some destination =>
    if destination.droppableId = result.source.droppableId ∧
        destination.index = result.source.index then
      Except.ok state
    else
      match state.areas result.source.droppableId with
      | none => Except.error "TypeError"
      | some area =>
        let newActionIds :=
          splice (splice area.actionIds result.source.index 1 []) destination.index 0
            [result.draggableId]
        let newArea : Area := { area with actionIds := newActionIds }
        Except.ok
          { state with
            areas := fun key => if key = newArea.id then some newArea else state.areas key }

/-- The object `iconMap` of the plan page, by icon component name. -/
def iconMap (category : String) : Option String :=
  if category = "housing" then some "Home"
  else if category = "food" then some "Fastfood"
  else if category = "health" then some "FitnessCenter"
  else if category = "transportation" then some "DirectionsCar"
  else if category = "university" then some "LocalMall"
  else if category = "non-essentials" then some "Movie"
  else if category = "savings" then some "Savings"
  else none

/-- The state `cardsList` before any expense is added: no card and the empty area
`expenses`. -/
def emptyCardsList : AllocationState :=
  { actions := fun _ => none
    areas := fun key => if key = "expenses" then some { id := "expenses", actionIds := [] } else none
    areaOrder := ["expenses"] }

/-- The template literal `expense-` followed by `index + 1`. -/
def actionIdOf (index : Nat) : String :=
  "expense-" ++ toString (index + 1)

/-- The callback of `planData.financialPlan.expenses.forEach((expense, index) => ...)`.
Letter case is changed on ASCII letters. -/
def Plan.addCard (income : ℚ) (cards : AllocationState) (expense : Expense) (index : Nat) :
    AllocationState :=
  let actionId := actionIdOf index
  let category := expense.type
  let icon := (iconMap category.toLower).getD "Power"
  let amount := JSNum.fin income * JSNum.fin expense.expense / JSNum.fin 100
  { cards with
    actions := fun key =>
      if key = actionId then
        some { id := actionId, icon := icon, amount := amount, category := category.capitalize }
      else cards.actions key
    areas := fun key =>
      if key = "expenses" then
        (cards.areas "expenses").map fun area =>
          { area with actionIds := area.actionIds ++ [actionId] }
      else cards.areas key }

/-- The `forEach` over the expenses of the plan, from position `index` on. -/
def Plan.addCards (income : ℚ) : List Expense → Nat → AllocationState → AllocationState
  | [], _, cards => cards
  | expense :: rest, index, cards =>
    Plan.addCards income rest (index + 1) (Plan.addCard income cards expense index)

/-- The object `newCardsList` handed to `setCardsList`. -/
def Plan.newCardsList (income : ℚ) (expenses : List Expense) : AllocationState :=
  Plan.addCards income expenses 0 emptyCardsList

/-- The React state of the `Plan` page. -/
structure PlanState where
  error : Option String
  message : Option String
  income : ℚ
  cardsList : AllocationState
  loading : Bool

/-- The state of the `Plan` page when it is mounted. -/
def Plan.initialState : PlanState :=
  { error := none, message := none, income := 0, cardsList := emptyCardsList, loading := true }

/-- The `try` block of `load_userdata` in `plan.jsx`; `Except.error` is a thrown exception
and carries the state reached. -/
def Plan.load_userdata.tryBlock (sv : Services) (s : PlanState) : Except PlanState PlanState :=
  let planData := sv.getPlan
  if planData.status ≠ "success" then
    Except.ok { s with error := some planData.status, message := some planData.message }
  else
  let userData := sv.getUser
  if userData.status ≠ "success" then
    Except.ok { s with error := some userData.status, message := some userData.message }
  else
  match userData.user with
  | none => Except.error s
  | some user =>
  let s1 : PlanState := { s with income := user.income }
  match planData.financialPlan with
  | none => Except.error s1
  | some plan =>
  Except.ok { s1 with cardsList := Plan.newCardsList user.income plan.expenses }

/-- The function `load_userdata` of `plan.jsx`. -/
def Plan.load_userdata (sv : Services) (s : PlanState) : PlanState :=
  let s1 :=
    match Plan.load_userdata.tryBlock sv s with
    | Except.ok s1 => s1
    | Except.error s1 =>
      { s1 with error := some "fetch_error"
                message := some "An error occurred while fetching data." }
  { s1 with loading := false }

/-! ## Vocabulary for the allocation state -/

/-- Every area is stored under its own `id`, so that `state.areas` is a map from area id
to area. -/
def AllocationState.Keyed (s : AllocationState) : Prop :=
  ∀ key area, s.areas key = some area → area.id = key

/-- The ordered list of an area, if the state has the area. -/
def AllocationState.listOf (s : AllocationState) (key : String) : Option (List String) :=
  (s.areas key).map Area.actionIds

/-- The invariant of the allocation state: every id in the list of an area is a card of
`actions`, and every card id occurs in the list of exactly one area, exactly once. -/
def AllocationState.Invariant (s : AllocationState) : Prop :=
  (∀ key area, s.areas key = some area → ∀ id ∈ area.actionIds, (s.actions id).isSome) ∧
  (∀ id, (s.actions id).isSome →
    ∃ key area, s.areas key = some area ∧ area.actionIds.count id = 1 ∧
      ∀ key' area', s.areas key' = some area' → id ∈ area'.actionIds → key' = key)

/-- A card with the given id, for the sample states. -/
def sampleCard (id : String) : Action :=
  { id := id, icon := "Power", amount := JSNum.fin 0, category := id }

/-- A state with the single area `A` holding `e1, e2, e3`. -/
def stateOneArea : AllocationState :=
  { actions := fun key =>
      if key = "e1" ∨ key = "e2" ∨ key = "e3" then some (sampleCard key) else none
    areas := fun key =>
      if key = "A" then some { id := "A", actionIds := ["e1", "e2", "e3"] } else none
    areaOrder := ["A"] }

/-- A state with the areas `A` holding `a1, a2` and `B` holding `b1, b2`. -/
def stateTwoAreas : AllocationState :=
  { actions := fun key =>
      if key = "a1" ∨ key = "a2" ∨ key = "b1" ∨ key = "b2" then some (sampleCard key) else none
    areas := fun key =>
      if key = "A" then some { id := "A", actionIds := ["a1", "a2"] }
      else if key = "B" then some { id := "B", actionIds := ["b1", "b2"] }
      else none
    areaOrder := ["A", "B"] }

/-- A history whose only record is a food expense of amount zero. -/
def historyWithZeroAmount : List HistoryEntry :=
  [ { month := 1, saving := 0, expenses := [{ type := "food", expense := 0 }] } ]

/-- The ordered list of area `key` in the state left by a call of `onDragEnd`; `none` when
the call throws or the state has no such area. -/
def listAfter (outcome : Except String AllocationState) (key : String) : Option (List String) :=
  match outcome with
  | Except.ok s => s.listOf key
  | Except.error _ => none

/-- The cards of the state left by a call of `onDragEnd`, looked up by id. -/
def cardAfter (outcome : Except String AllocationState) (id : String) : Option Action :=
  match outcome with
  | Except.ok s => s.actions id
  | Except.error _ => none

/-! ## Vocabulary for the expected series and the record counts -/

/-- An entry without its records of types outside the category list. -/
def dropUnlisted (e : HistoryEntry) : HistoryEntry :=
  { e with expenses := e.expenses.filter (fun r => decide (r.type ∈ categories)) }

/-- An entry holding a food record and a record of a type outside the category list. -/
def historyWithUnlistedType : List HistoryEntry :=
  [ { month := 1, saving := 0,
      expenses := [{ type := "food", expense := 100 }, { type := "pets", expense := 70 }] } ]

/-! ## The history page: `historyCard.jsx`, `historyForm.jsx` and `history.jsx` -/

/-- The text of a number input: the empty string, or a numeral written in plain decimal
form and denoting `x`. -/
inductive InputText where
  | empty
  | numeral (x : ℚ)
  deriving DecidableEq

/-- A value held by a field of the history form, of a stored entry or of a history card:
a string, `null`, `undefined` or a number.  `text InputText.empty` is the string `""`. -/
inductive FieldValue where
  | text (t : InputText)
  | null
  | undefined
  | num (x : ℚ)
  deriving DecidableEq

/-- A JavaScript object used as a record of fields, by its entries in property order. -/
def objSet (o : List (String × FieldValue)) (key : String) (v : FieldValue) :
    List (String × FieldValue) :=
  match o with
  | [] => [(key, v)]
  | (k, w) :: rest => if k = key then (k, v) :: rest else (k, w) :: objSet rest key v

/-- The property read `o[key]`; a missing property is `undefined`. -/
def objGet (o : List (String × FieldValue)) (key : String) : FieldValue :=
  match o with
  | [] => FieldValue.undefined
  | (k, w) :: rest => if k = key then w else objGet rest key

/-- The first significant decimal digit of the positive rational `n / d`. -/
def leadingDigit (n d : Nat) : Nat :=
  if d ≤ n then (Nat.digits 10 (n / d)).getLastD 0
  else
    (Nat.digits 10
      (n * 10 ^ ((Nat.digits 10 d).length - (Nat.digits 10 n).length + 1) / d)).getLastD 0

/-- The call `parseInt(x)` for a number: the number is written out and its leading integer
is read.  Between `1e-6` and `1e21` in size the number is written in plain decimal form and
the result is the number truncated toward zero; outside it is written with an exponent and
the result is its first digit with its sign. -/
def parseIntNumber (x : ℚ) : Int :=
  if x.num = 0 then 0
  else if x.den ≤ 10 ^ 6 * x.num.natAbs ∧ x.num.natAbs < 10 ^ 21 * x.den then
    x.num.tdiv (x.den : Int)
  else if 0 < x.num then (leadingDigit x.num.natAbs x.den : Int)
  else -(leadingDigit x.num.natAbs x.den : Int)

/-- The call `parseInt(val)`; `none` is `NaN`. -/
def parseInt : FieldValue → Option Int
  | FieldValue.num x => some (parseIntNumber x)
  | FieldValue.text (InputText.numeral x) => some (parseIntNumber x)
  | FieldValue.text InputText.empty => none
  | FieldValue.null => none
  | FieldValue.undefined => none

/-- The expression `parseInt(val) || 0`. -/
def parseIntOrZero (val : FieldValue) : Int :=
  match parseInt val with
  | some n => n
  | none => 0

/-- The object `data` of a history card. -/
structure HistoryCard where
  history_id : Option String
  month : Int
  month_name : String
  id_user : String
  values : List (String × FieldValue)
  deriving DecidableEq

/-- The function `calculateTotal` of `ExpenseCard`. -/
def ExpenseCard.calculateTotal (data : HistoryCard) : Int :=
  (data.values.map Prod.snd).foldl (fun acc val => acc + parseIntOrZero val) 0

/-- The amount a value stands for when it is a number, for the exact sum of a card. -/
def FieldValue.amount : FieldValue → ℚ
  | FieldValue.num x => x
  | _ => 0

/-- The exact arithmetic sum of the amounts in `data.values`. -/
def exactTotal (data : HistoryCard) : ℚ :=
  ((data.values.map Prod.snd).map FieldValue.amount).sum

/-- One option of the month selector. -/
structure MonthOption where
  label : String
  value : Int
  monthName : String
  deriving DecidableEq

/-- The state of `ExpenseForm`: the selected month (`none` is the initial `""`), the field
values and the list of selectable months. -/
structure ExpenseFormState where
  month : Option Int
  values : List (String × FieldValue)
  availableMonthsList : List MonthOption
  deriving DecidableEq

/-- The initial `values` of `ExpenseForm`. -/
def ExpenseForm.initialValues : List (String × FieldValue) :=
  [ ("food", FieldValue.text InputText.empty),
    ("housing", FieldValue.text InputText.empty),
    ("health", FieldValue.text InputText.empty),
    ("transportation", FieldValue.text InputText.empty),
    ("university", FieldValue.text InputText.empty),
    ("non-essentials", FieldValue.text InputText.empty),
    ("saving", FieldValue.text InputText.empty) ]

/-- The target of a change event: the name, text and type of the input. -/
structure ChangeEvent where
  name : String
  value : InputText
  type : String
  deriving DecidableEq

/-- The handler `handleChange(e)` of `ExpenseForm`. -/
def ExpenseForm.handleChange (st : ExpenseFormState) (e : ChangeEvent) : ExpenseFormState :=
  let v : FieldValue :=
    if e.type = "number" then
      (match e.value with
       | InputText.empty => FieldValue.null
       | InputText.numeral x => FieldValue.num x)
    else FieldValue.text e.value
  { st with values := objSet st.values e.name v }

/-- The object handed to `onSubmit`. -/
structure FormSubmission where
  month : Int
  month_name : String
  id_user : String
  values : List (String × FieldValue)
  deriving DecidableEq

/-- What `handleSubmit` does: it calls `onSubmit` or shows an error toast. -/
inductive SubmitOutcome where
  | onSubmit (x : FormSubmission)
  | toastError (text : String)
  deriving DecidableEq

/-- The handler `handleSubmit` of `ExpenseForm`, for the signed-in user `uid`. -/
def ExpenseForm.handleSubmit (st : ExpenseFormState) (uid : String) : SubmitOutcome :=
  let selectedMonth := st.availableMonthsList.find? (fun m => decide (some m.value = st.month))
  match st.month, selectedMonth with
  | some month, some selected =>
    if month ≠ 0 ∧
        (st.values.map Prod.snd).all (fun v => decide (v ≠ FieldValue.text InputText.empty)) then
      SubmitOutcome.onSubmit
        { month := selected.value, month_name := selected.monthName, id_user := uid,
          values := st.values }
    else SubmitOutcome.toastError "Please fill all fields."
  | _, _ => SubmitOutcome.toastError "Please fill all fields."

/-- An edit of one field of the form, or the choice of a month. -/
inductive FormEdit where
  | change (e : ChangeEvent)
  | setMonth (month : Int)
  deriving DecidableEq

/-- The form after one edit. -/
def ExpenseForm.edit (st : ExpenseFormState) : FormEdit → ExpenseFormState
  | FormEdit.change e => ExpenseForm.handleChange st e
  | FormEdit.setMonth month => { st with month := some month }

/-- The form after a sequence of edits. -/
def ExpenseForm.edits (st : ExpenseFormState) (es : List FormEdit) : ExpenseFormState :=
  es.foldl ExpenseForm.edit st

/-- One `{ type, expense }` record as stored for the history page. -/
structure StoredExpense where
  type : String
  expense : FieldValue
  deriving DecidableEq

/-- One history entry in its stored shape. -/
structure StoredEntry where
  id : Option String
  month : Int
  expenses : List StoredExpense
  saving : FieldValue
  deriving DecidableEq

/-- The function `transformExpense` of the history page. -/
def History.transformExpense (newExpense : FormSubmission) : StoredEntry :=
  { id := none
    month := newExpense.month
    expenses :=
      (newExpense.values.filter (fun kv => decide (kv.1 ≠ "saving"))).map
        (fun kv => { type := kv.1, expense := kv.2 })
    saving := objGet newExpense.values "saving" }

/-- The callback of `historyData.history.map(entry => ...)` in `transformHistoryData`;
`none` is a thrown exception (an invalid timestamp, or `setMonth` called on `null`). -/
def History.transformEntry (monthYear : JSDate → Int → String) (startDate : TimestampArg)
    (id_user : String) (entry : StoredEntry) : Option HistoryCard :=
  match convertToJSDate startDate with
  | Except.ok (some date) =>
    some
      { history_id := entry.id
        month := entry.month
        month_name := monthYear date entry.month
        id_user := id_user
        values :=
          objSet (entry.expenses.foldl (fun acc exp => objSet acc exp.type exp.expense) [])
            "Saving" entry.saving }
  | _ => none

/-- The function `transformHistoryData`; `none` when a callback throws. -/
def History.transformHistoryData (monthYear : JSDate → Int → String)
    (history : List StoredEntry) (startDate : TimestampArg) (id_user : String) :
    Option (List HistoryCard) :=
  history.mapM (History.transformEntry monthYear startDate id_user)

/-- The sort `.sort((a, b) => a.month - b.month)` of a list of cards. -/
def sortCards (cards : List HistoryCard) : List HistoryCard :=
  cards.insertionSort (fun a b => a.month ≤ b.month)

/-- The state of the `History` page, plus the toasts shown so far. -/
structure HistoryState where
  expenses : List HistoryCard
  isFormOpen : Bool
  loading : Bool
  error : Option String
  message : Option String
  planData : Option FinancialPlan
  toasts : List String

/-- The state of the `History` page when it is mounted. -/
def History.initialState : HistoryState :=
  { expenses := [], isFormOpen := false, loading := true, error := none, message := none,
    planData := none, toasts := [] }

/-- Response of `historyService.getHistory` as the history page reads it. -/
structure StoredHistoryResponse where
  status : String
  message : String
  history : Option (List StoredEntry)

/-- Response of `historyService.addHistory` and `historyService.deleteHistory`. -/
structure HistoryRequestResponse where
  status : String
  message : String
  history_id : Option String

/-- The `try` block of `load_userdata` in `history.jsx`; `Except.error` is a thrown
exception and carries the state reached. -/
def History.load_userdata.tryBlock (monthYear : JSDate → Int → String) (uid : String)
    (fetchedPlanData : PlanResponse) (historyData : StoredHistoryResponse) (s : HistoryState) :
    Except HistoryState HistoryState :=
  if fetchedPlanData.status ≠ "success" then
    Except.ok { s with error := some fetchedPlanData.status,
                       message := some fetchedPlanData.message }
  else if historyData.status ≠ "success" ∧ historyData.status ≠ "not_found" then
    Except.ok { s with error := some historyData.status, message := some historyData.message }
  else
    match historyData.history, fetchedPlanData.financialPlan with
    | some history, some plan =>
      match History.transformHistoryData monthYear history plan.date uid with
      | none => Except.error s
      | some expenses_db =>
        Except.ok { s with expenses := sortCards expenses_db, planData := some plan }
    | _, _ => Except.error s

/-- The function `load_userdata` of `history.jsx`. -/
def History.load_userdata (monthYear : JSDate → Int → String) (uid : String)
    (fetchedPlanData : PlanResponse) (historyData : StoredHistoryResponse) (s : HistoryState) :
    HistoryState :=
  let s1 :=
    match History.load_userdata.tryBlock monthYear uid fetchedPlanData historyData s with
    | Except.ok s1 => s1
    | Except.error s1 =>
      { s1 with error := some "fetch_error"
                message := some "An error occurred while fetching data." }
  { s1 with loading := false }

/-- The card of a submission with its `history_id`. -/
def History.updatedExpense (newExpense : FormSubmission) (history_id : Option String) :
    HistoryCard :=
  { history_id := history_id, month := newExpense.month, month_name := newExpense.month_name,
    id_user := newExpense.id_user, values := newExpense.values }

/-- The function `handleAddExpense`, given the answer of `historyService.addHistory`. -/
def History.handleAddExpense (newExpense : FormSubmission)
    (historyRequest : HistoryRequestResponse) (s : HistoryState) : HistoryState :=
  let s1 : HistoryState :=
    if historyRequest.status ≠ "success" then
      { s with toasts := s.toasts ++ [historyRequest.message] }
    else
      { s with
        expenses :=
          sortCards (s.expenses ++ [History.updatedExpense newExpense historyRequest.history_id])
        toasts := s.toasts ++ [historyRequest.message] }
  { s1 with isFormOpen := false }

/-- The function `handleDeleteExpense`, given the answer of `historyService.deleteHistory`
(which is called only when the card has a `history_id`). -/
def History.handleDeleteExpense (index : Nat) (historyRequest : HistoryRequestResponse)
    (s : HistoryState) : HistoryState :=
  match s.expenses[index]? with
  | none => { s with toasts := s.toasts ++ ["No se encontró el ID del gasto a eliminar."] }
  | some expenseToDelete =>
    match expenseToDelete.history_id with
    | none => { s with toasts := s.toasts ++ ["No se encontró el ID del gasto a eliminar."] }
    | some id =>
      if id = "" then
        { s with toasts := s.toasts ++ ["No se encontró el ID del gasto a eliminar."] }
      else if historyRequest.status ≠ "success" then
        { s with toasts := s.toasts ++ [historyRequest.message] }
      else
        { s with
          expenses := s.expenses.eraseIdx index
          toasts := s.toasts ++ [historyRequest.message] }

/-- One operation on the history page, with the answers of the services it calls. -/
inductive HistoryOp where
  | load (monthYear : JSDate → Int → String) (uid : String) (plan : PlanResponse)
      (history : StoredHistoryResponse)
  | add (newExpense : FormSubmission) (historyRequest : HistoryRequestResponse)
  | delete (index : Nat) (historyRequest : HistoryRequestResponse)

/-- The state of the history page after one operation. -/
def History.step (s : HistoryState) : HistoryOp → HistoryState
  | HistoryOp.load monthYear uid plan history =>
    History.load_userdata monthYear uid plan history s
  | HistoryOp.add newExpense historyRequest =>
    History.handleAddExpense newExpense historyRequest s
  | HistoryOp.delete index historyRequest =>
    History.handleDeleteExpense index historyRequest s

/-- The state of the history page after a sequence of operations. -/
def History.run (s : HistoryState) (ops : List HistoryOp) : HistoryState :=
  ops.foldl History.step s

/-! ## The new-plan wizard: `newplanquestions.jsx` -/

/-- One question of the wizard. -/
structure Question where
  question : String
  field : String
  type : String
  deriving DecidableEq

/-- The array `questions` of `NewPlanQuestions`. -/
def NewPlanQuestions.questions : List Question :=
  [ { question := "What is your total income per month?", field := "income", type := "number" },
    { question := "How much do you spend on housing per month?", field := "housing",
      type := "number" },
    { question := "How much do you spend on food per month?", field := "food",
      type := "number" },
    { question := "How much do you spend on healthcare per month?", field := "healthcare",
      type := "number" },
    { question := "How much do you spend on transportation per month?",
      field := "transportation", type := "number" },
    { question := "How much do you spend on education per month (including tuition)?",
      field := "education", type := "number" },
    { question := "How much do you spend on non-essential things per month?",
      field := "non-essential", type := "number" },
    { question := "What is your main financial goal?", field := "goal_name", type := "text" },
    { question := "How much money do you need to achieve your goal?", field := "goal",
      type := "number" },
    { question := "How much money have you saved so far to achieve your goal?",
      field := "last_saving", type := "number" },
    { question := "In how many months would you like to achieve your goal?",
      field := "duration", type := "number" } ]

/-- The updater of `handleNext`: `Math.min(prev + 1, questions.length - 1)`. -/
def NewPlanQuestions.handleNext (prev : Int) : Int :=
  min (prev + 1) ((NewPlanQuestions.questions.length : Int) - 1)

/-- The updater of `handlePrevious`: `Math.max(prev - 1, 0)`. -/
def NewPlanQuestions.handlePrevious (prev : Int) : Int :=
  max (prev - 1) 0

/-- A click on one of the two navigation buttons of the wizard. -/
inductive WizardStep where
  | next
  | previous
  deriving DecidableEq

/-- The question index after one click. -/
def NewPlanQuestions.step (index : Int) : WizardStep → Int
  | WizardStep.next => NewPlanQuestions.handleNext index
  | WizardStep.previous => NewPlanQuestions.handlePrevious index

/-- The question index after a sequence of clicks. -/
def NewPlanQuestions.run (index : Int) (steps : List WizardStep) : Int :=
  steps.foldl NewPlanQuestions.step index

/-! ## Sample inputs for the history page -/

/-- A card with two amounts that are not whole numbers. -/
def cardWithFractions : HistoryCard :=
  { history_id := some "h1", month := 1, month_name := "January 2025", id_user := "u1"
    values :=
      [ ("food", FieldValue.num (21 / 2)), ("housing", FieldValue.num (41 / 2)),
        ("health", FieldValue.num 0), ("transportation", FieldValue.num 0),
        ("university", FieldValue.num 0), ("non-essentials", FieldValue.num 0),
        ("Saving", FieldValue.num 5) ] }

/-- A form for a three-month plan, as mounted. -/
def sampleForm : ExpenseFormState :=
  { month := none
    values := ExpenseForm.initialValues
    availableMonthsList :=
      [ { label := "January 2025", value := 1, monthName := "January 2025" },
        { label := "February 2025", value := 2, monthName := "February 2025" },
        { label := "March 2025", value := 3, monthName := "March 2025" } ] }

/-- A number typed into the field `name`. -/
def typeNumber (name : String) (x : ℚ) : FormEdit :=
  FormEdit.change { name := name, value := InputText.numeral x, type := "number" }

/-- The field `name` cleared. -/
def clearField (name : String) : FormEdit :=
  FormEdit.change { name := name, value := InputText.empty, type := "number" }

/-- Month 1 chosen, every field filled in, and the field `food` cleared again. -/
def editsWithClearedField : List FormEdit :=
  [ FormEdit.setMonth 1, typeNumber "food" 100, typeNumber "housing" 200,
    typeNumber "health" 30, typeNumber "transportation" 40, typeNumber "university" 50,
    typeNumber "non-essentials" 60, typeNumber "saving" 70, clearField "food" ]

/-- A submission of the form with a number in every field. -/
def sampleSubmission : FormSubmission :=
  { month := 1, month_name := "January 2025", id_user := "u1"
    values :=
      [ ("food", FieldValue.num 100), ("housing", FieldValue.num 200),
        ("health", FieldValue.num 30), ("transportation", FieldValue.num 40),
        ("university", FieldValue.num 50), ("non-essentials", FieldValue.num 60),
        ("saving", FieldValue.num 70) ] }

/-- The entry the tracking page reads for a stored entry whose amounts are numbers. -/
def StoredEntry.toHistoryEntry (e : StoredEntry) : HistoryEntry :=
  { month := e.month
    saving := e.saving.amount
    expenses := e.expenses.map (fun r => { type := r.type, expense := r.expense.amount }) }

/-- A user whose income, `1e308`, is close to the largest double. -/
def userWithHugeIncome : User := { income := ((10 ^ 308 : Nat) : ℚ) }

/-- Services that deliver the sample plan and history and the user with the huge income,
and answer every projection request with `reg`. -/
def servicesWithHugeIncome (reg : RegressionResponse) : Services :=
  { getPlan := { status := "success", message := "", financialPlan := some samplePlan }
    getHistory := { status := "success", message := "", history := some sampleHistory }
    getTracking := { status := "success", message := "" }
    getUser := { status := "success", message := "", user := some userWithHugeIncome }
    get_points_regression := fun _ => reg
    monthYear := fun _ _ => "" }

/-! ### Loop lemmas -/

/-- The loop, given at least as many steps as remain, appends one point per remaining
counter value; in particular the fuel of `getExpectedPoints` never cuts the loop short. -/
theorem getExpectedPoints_loop_eq (k v0 : JSNum) (d : Int) :
    ∀ (fuel : Nat) (i : Int) (ms : List Int) (ps : List JSNum),
      (d + 1 - i).toNat ≤ fuel →
      getExpectedPoints.loop k v0 d fuel i (ms, ps) =
        (ms ++ (List.range (d + 1 - i).toNat).map (fun (j : Nat) => i + (j : Int)),
         ps ++ (List.range (d + 1 - i).toNat).map
            (fun (j : Nat) => k * JSNum.ofInt (i + (j : Int)) + v0)) := by
  intro fuel
  induction fuel with
  | zero =>
    intro i ms ps h
    have h0 : (d + 1 - i).toNat = 0 := Nat.le_zero.mp h
    simp [getExpectedPoints.loop, h0]
  | succ n ih =>
    intro i ms ps h
    by_cases hi : i ≤ d
    · have hc : (d + 1 - i).toNat = (d + 1 - (i + 1)).toNat + 1 := by omega
      have hn : (d + 1 - (i + 1)).toNat ≤ n := by omega
      rw [getExpectedPoints.loop, if_pos hi, ih (i + 1) _ _ hn, hc, List.range_succ_eq_map]
      simp only [List.map_cons, List.map_map, List.append_assoc, List.singleton_append,
        Nat.cast_zero, add_zero, Prod.mk.injEq]
      have e : ∀ j : Nat, i + 1 + (j : Int) = i + ((j + 1 : Nat) : Int) := by
        intro j
        push_cast
        ring
      simp [Function.comp_def, e]
    · have h0 : (d + 1 - i).toNat = 0 := by omega
      simp [getExpectedPoints.loop, hi, h0]

/-- Closed form of the month array of `getExpectedPoints`. -/
theorem getExpectedPoints_months (k v0 : JSNum) (d : Int) :
    (getExpectedPoints k v0 d).months =
      (List.range (d + 1).toNat).map (fun (j : Nat) => (j : Int)) := by
  simp [getExpectedPoints, getExpectedPoints_loop_eq k v0 d (d + 1).toNat 0 [] [] (by simp)]

/-- Closed form of the value array of `getExpectedPoints`. -/
theorem getExpectedPoints_progress (k v0 : JSNum) (d : Int) :
    (getExpectedPoints k v0 d).progress =
      (List.range (d + 1).toNat).map (fun (j : Nat) => k * JSNum.ofInt (j : Int) + v0) := by
  simp [getExpectedPoints, getExpectedPoints_loop_eq k v0 d (d + 1).toNat 0 [] [] (by simp)]

/-- The bound at which a result overflows is positive. -/
theorem JSNum.overflowBound_pos : (0 : ℚ) < JSNum.overflowBound := by
  unfold JSNum.overflowBound
  norm_num

/-- A result within the range of the doubles is that finite number. -/
theorem JSNum.ofExact_of_inRange (q : ℚ) (h : JSNum.inRange q = true) :
    JSNum.ofExact q = JSNum.fin q := by
  simp only [JSNum.inRange, Bool.and_eq_true, decide_eq_true_eq] at h
  simp [JSNum.ofExact, not_le.mpr h.2, not_le.mpr h.1]

/-- The exact result zero is the finite zero. -/
theorem JSNum.ofExact_zero : JSNum.ofExact 0 = JSNum.fin 0 := by
  have h := JSNum.overflowBound_pos
  simp [JSNum.ofExact, not_le.mpr h]

/-- The sum of two finite numbers. -/
theorem JSNum.fin_add_fin (a b : ℚ) :
    JSNum.fin a + JSNum.fin b
      = if (JSNum.inRange a && JSNum.inRange b) = true then JSNum.ofExact (a + b)
        else JSNum.fin (a + b) := by
  show JSNum.add (JSNum.fin a) (JSNum.fin b) = _
  unfold JSNum.add
  rfl

/-- Adding a value to a finite zero leaves it unchanged, whatever the value. -/
theorem JSNum.fin_zero_add (v : JSNum) : JSNum.fin 0 + v = v := by
  cases v with
  | fin q =>
    rw [JSNum.fin_add_fin, zero_add]
    by_cases hq : JSNum.inRange q = true
    · rw [JSNum.ofExact_of_inRange q hq]; simp
    · simp [hq]
  | posInf => rfl
  | negInf => rfl
  | nan => rfl

/-- A finite number times a finite number is the product, an infinity when it overflows. -/
theorem JSNum.fin_mul_fin (a b : ℚ) : JSNum.fin a * JSNum.fin b = JSNum.ofExact (a * b) := rfl

/-- A finite number times zero is zero. -/
theorem JSNum.fin_mul_zero (a : ℚ) : JSNum.fin a * JSNum.ofInt 0 = JSNum.fin 0 := by
  rw [JSNum.ofInt, JSNum.fin_mul_fin, Int.cast_zero, mul_zero, JSNum.ofExact_zero]

/-- With a zero increase every expected value is the initial value. -/
theorem JSNum.zero_mul_ofInt_add (i : Int) (v : JSNum) :
    JSNum.fin 0 * JSNum.ofInt i + v = v := by
  rw [JSNum.ofInt, JSNum.fin_mul_fin, zero_mul, JSNum.ofExact_zero, JSNum.fin_zero_add]

/-! ## `getExpectedPoints`: the expected-progress series -/

/-- C8: for every increase `k`, initial value `v0` and duration `d ≥ 0`,
`getExpectedPoints(k, v0, d)` returns `months = [0, 1, ..., d]` and a `progress` array whose
entry `i` is `k * i + v0` for every `i` in `0..d`; for `k = 0` every entry equals `v0`. -/
theorem getExpectedPoints_spec (k v0 : JSNum) (d : Nat) :
    (getExpectedPoints k v0 (d : Int)).months
        = (List.range (d + 1)).map (fun (i : Nat) => (i : Int)) ∧
      (getExpectedPoints k v0 (d : Int)).progress
        = (List.range (d + 1)).map (fun (i : Nat) => k * JSNum.ofInt (i : Int) + v0) ∧
      (∀ i : Nat, i ≤ d →
        (getExpectedPoints k v0 (d : Int)).months[i]? = some (i : Int) ∧
        (getExpectedPoints k v0 (d : Int)).progress[i]?
          = some (k * JSNum.ofInt (i : Int) + v0)) ∧
      (getExpectedPoints (JSNum.fin 0) v0 (d : Int)).progress = List.replicate (d + 1) v0 := by
  have hd : ((d : Int) + 1).toNat = d + 1 := by omega
  refine ⟨?_, ?_, ?_, ?_⟩
  · rw [getExpectedPoints_months, hd]
  · rw [getExpectedPoints_progress, hd]
  · intro i hi
    have hi' : i < d + 1 := by omega
    rw [getExpectedPoints_months, getExpectedPoints_progress, hd]
    simp [List.getElem?_map, List.getElem?_range hi']
  · rw [getExpectedPoints_progress, hd]
    apply List.ext_getElem
    · simp
    · intro n h1 h2
      simp [JSNum.zero_mul_ofInt_add]

/-- Instance of C8: a plan of three months with increase 2 starting at 10. -/
theorem getExpectedPoints_spec_witness :
    (getExpectedPoints (JSNum.fin 2) (JSNum.fin 10) ((3 : Nat) : Int)).months[2]?
        = some ((2 : Nat) : Int) ∧
      (getExpectedPoints (JSNum.fin 2) (JSNum.fin 10) ((3 : Nat) : Int)).progress[2]?
        = some (JSNum.fin 2 * JSNum.ofInt ((2 : Nat) : Int) + JSNum.fin 10) :=
  (getExpectedPoints_spec (JSNum.fin 2) (JSNum.fin 10) 3).2.2.1 2 (by decide)

/-- C9 fails as stated for an increase that is not finite: `getExpectedPoints(Infinity, 5, 2)`
returns the values `[NaN, Infinity, Infinity]`, since `Infinity * 0` is `NaN`; the first
value is not the initial value 5. -/
theorem getExpectedPoints_shape_counterexample :
    (getExpectedPoints JSNum.posInf (JSNum.fin 5) 2).progress
        = [JSNum.nan, JSNum.posInf, JSNum.posInf] ∧
      (getExpectedPoints JSNum.posInf (JSNum.fin 5) 2).progress.head? ≠ some (JSNum.fin 5) := by
  decide!

/-- C9, as the code has it: for every increase `k`, initial value `v0` and duration `d ≥ 0`,
the series of `getExpectedPoints(k, v0, d)` has length `d + 1`, first value `k * 0 + v0` and
last value `k * d + v0`; for every finite increase `q` the first value is `v0`, and for
`d = 0` the series is the single point `v0`; and
`getExpectedPoints(0, 5, 3).progress = [5, 5, 5, 5]`. -/
theorem getExpectedPoints_shape (k v0 : JSNum) (d : Nat) (q : ℚ) :
    (getExpectedPoints k v0 (d : Int)).progress.length = d + 1 ∧
      (getExpectedPoints k v0 (d : Int)).months.length = d + 1 ∧
      (getExpectedPoints k v0 (d : Int)).progress.head?
        = some (k * JSNum.ofInt 0 + v0) ∧
      (getExpectedPoints k v0 (d : Int)).progress.getLast?
        = some (k * JSNum.ofInt (d : Int) + v0) ∧
      (getExpectedPoints (JSNum.fin q) v0 (d : Int)).progress.head? = some v0 ∧
      (getExpectedPoints (JSNum.fin q) v0 0).progress = [v0] ∧
      (getExpectedPoints (JSNum.fin 0) (JSNum.fin 5) 3).progress
        = [JSNum.fin 5, JSNum.fin 5, JSNum.fin 5, JSNum.fin 5] := by
  have hd : ((d : Int) + 1).toNat = d + 1 := by omega
  have h0 : JSNum.fin q * JSNum.ofInt ((0 : Nat) : Int) + v0 = v0 := by
    rw [Nat.cast_zero, JSNum.fin_mul_zero, JSNum.fin_zero_add]
  refine ⟨?_, ?_, ?_, ?_, ?_, ?_, ?_⟩
  · rw [getExpectedPoints_progress, hd]; simp
  · rw [getExpectedPoints_months, hd]; simp
  · rw [getExpectedPoints_progress, hd, List.range_succ_eq_map]
    simp only [List.map_cons, List.head?_cons, Nat.cast_zero]
  · rw [getExpectedPoints_progress, hd, List.range_succ]
    simp
  · rw [getExpectedPoints_progress, hd, List.range_succ_eq_map]
    simp only [List.map_cons, List.head?_cons, h0]
  · have e := getExpectedPoints_progress (JSNum.fin q) v0 0
    rw [e]
    simpa [List.range_succ] using h0
  · apply List.ext_getElem
    · rw [getExpectedPoints_progress]; rfl
    · intro n h1 h2
      rw [List.getElem_of_eq (getExpectedPoints_progress (JSNum.fin 0) (JSNum.fin 5) 3)]
      simp only [List.getElem_map, JSNum.zero_mul_ofInt_add]
      have h3 : n < 4 := by simpa using h2
      interval_cases n <;> rfl

/-- Instance of the amended C9: the increase 2 from the initial value 10 over three months. -/
theorem getExpectedPoints_shape_witness :
    (getExpectedPoints (JSNum.fin 2) (JSNum.fin 10) ((3 : Nat) : Int)).progress.length = 3 + 1 ∧
      (getExpectedPoints (JSNum.fin 2) (JSNum.fin 10) ((3 : Nat) : Int)).progress.head?
        = some (JSNum.fin 10) ∧
      (getExpectedPoints (JSNum.fin 2) (JSNum.fin 10) ((3 : Nat) : Int)).progress.getLast?
        = some (JSNum.fin 2 * JSNum.ofInt ((3 : Nat) : Int) + JSNum.fin 10) :=
  ⟨(getExpectedPoints_shape (JSNum.fin 2) (JSNum.fin 10) 3 2).1,
    (getExpectedPoints_shape (JSNum.fin 2) (JSNum.fin 10) 3 2).2.2.2.2.1,
    (getExpectedPoints_shape (JSNum.fin 2) (JSNum.fin 10) 3 2).2.2.2.1⟩

/-! ## Lemmas on the building blocks of the chart -/

/-- The months collected by the `forEach` are the months of the entries, in order. -/
theorem accumulate_foldl (h : List HistoryEntry) :
    ∀ (ms : List Int) (ps : List JSNum) (a : JSNum),
      (h.foldl
        (fun (acc : Accumulated) (e : HistoryEntry) =>
          ({ months := acc.months ++ [e.month]
             progress := acc.progress ++ [acc.a_saving + JSNum.fin e.saving]
             a_saving := acc.a_saving + JSNum.fin e.saving } : Accumulated))
        { months := ms, progress := ps, a_saving := a }).months
        = ms ++ h.map HistoryEntry.month := by
  induction h with
  | nil => intro ms ps a; simp
  | cons e t ih => intro ms ps a; simp [List.foldl_cons, ih]

/-- The array `months` of `load_userdata` holds the months of the sorted history. -/
theorem accumulate_months (h : List HistoryEntry) :
    (accumulate h).months = h.map HistoryEntry.month := by
  simpa [accumulate] using accumulate_foldl h [] [] (JSNum.fin 0)

/-- Membership in `Array.from(new Set(xs))` is membership in `xs`. -/
theorem mem_arrayFromSet (m : Int) : ∀ xs : List Int, m ∈ arrayFromSet xs ↔ m ∈ xs := by
  intro xs
  induction xs with
  | nil => simp [arrayFromSet]
  | cons x t ih =>
    simp only [arrayFromSet, List.mem_cons, List.mem_filter, ih, decide_eq_true_eq]
    by_cases h : m = x <;> simp [h]

/-- The array `Array.from(new Set(xs))` has no repeated element. -/
theorem nodup_arrayFromSet : ∀ xs : List Int, (arrayFromSet xs).Nodup := by
  intro xs
  induction xs with
  | nil => simp [arrayFromSet]
  | cons x t ih =>
    simp only [arrayFromSet, List.nodup_cons, List.mem_filter, decide_eq_true_eq]
    exact ⟨fun h => h.2 rfl, ih.filter _⟩

/-- The numeric sort of a duplicate-free array is strictly increasing. -/
theorem sortNumeric_strict (xs : List Int) (h : xs.Nodup) :
    List.Pairwise (fun a b : Int => a < b) (sortNumeric xs) := by
  have hs : List.Sorted (fun a b : Int => a ≤ b) (sortNumeric xs) :=
    List.sorted_insertionSort _ xs
  have hn : (sortNumeric xs).Nodup := (List.perm_insertionSort _ xs).nodup_iff.mpr h
  exact hs.lt_of_le hn

/-- The numeric sort keeps exactly the elements of the array. -/
theorem mem_sortNumeric (m : Int) (xs : List Int) : m ∈ sortNumeric xs ↔ m ∈ xs :=
  (List.perm_insertionSort _ xs).mem_iff

/-- The history sort keeps exactly the entries of the history. -/
theorem sortHistory_perm (h : List HistoryEntry) : (sortHistory h).Perm h :=
  List.perm_insertionSort _ h

/-- The months returned by `getExpectedPoints` are the integers `0..duration`. -/
theorem mem_getExpectedPoints_months (k v0 : JSNum) (d m : Int) :
    m ∈ (getExpectedPoints k v0 d).months ↔ 0 ≤ m ∧ m ≤ d := by
  rw [getExpectedPoints_months]
  simp only [List.mem_map, List.mem_range]
  constructor
  · rintro ⟨j, hj, rfl⟩
    omega
  · rintro ⟨h0, h1⟩
    exact ⟨m.toNat, by omega, by omega⟩

/-- The month axis `allMonths` is strictly increasing. -/
theorem allMonths_strict (months : List Int) (proj : RegressionData) (ex : ExpectedPoints) :
    List.Pairwise (fun a b : Int => a < b) (allMonths months proj ex) :=
  sortNumeric_strict _ (nodup_arrayFromSet _)

/-- The month axis `allMonths` holds exactly the months of its three sources. -/
theorem mem_allMonths (m : Int) (months : List Int) (proj : RegressionData)
    (ex : ExpectedPoints) :
    m ∈ allMonths months proj ex ↔ m ∈ months ∨ m ∈ proj.all_months ∨ m ∈ ex.months := by
  simp [allMonths, mem_sortNumeric, mem_arrayFromSet, or_assoc]

/-! ## What `load_userdata` hands to `setChartData` -/

/-- When the four fetches and the projection succeed, the chart of the final state is
the one assembled by `buildChart` from the sorted history, the projection payload and the
expected points. -/
theorem load_userdata_chart (sv : Services) (s : PageState) (plan : FinancialPlan)
    (history : List HistoryEntry) (u : User) (proj : RegressionData)
    (hf : FetchesSucceed sv plan history u) (hp : ProjectionSucceeds sv plan history proj) :
    (load_userdata sv s).chartData =
      buildChart (accumulate (sortHistory history)).months
        (accumulate (sortHistory history)).progress proj
        (expectedPointsFor plan history u) plan.goal := by
  obtain ⟨h1, h2, h3, h4, h5, h6, h7⟩ := hf
  obtain ⟨hp1, hp2⟩ := hp
  have h3' : ¬ (sv.getHistory.status ≠ "success" ∧ sv.getHistory.status ≠ "not_found") := by
    rcases h3 with h | h <;> simp [h]
  simp only [regressionRequest] at hp1 hp2
  simp only [load_userdata, load_userdata.tryBlock, h1, h2, h3', h4, h5, h6, h7, hp1, hp2,
    ne_eq, not_true_eq_false, if_false, expectedPointsFor, expectedIncrease]
  cases hfind : plan.expenses.find? (fun expense => expense.type == "savings") <;>
    cases hact : activitiesOf sv.monthYear plan (sortHistory history) 0 <;> rfl

/-- The sample services deliver the sample plan, history and user. -/
theorem sampleServices_fetches (reg : RegressionResponse) :
    FetchesSucceed (sampleServices reg) samplePlan sampleHistory sampleUser :=
  ⟨rfl, rfl, Or.inl rfl, rfl, rfl, rfl, rfl⟩

/-- The sample services with a successful response deliver its payload. -/
theorem sampleServices_projection (data : RegressionData) :
    ProjectionSucceeds (sampleServices (projectionOk data)) samplePlan sampleHistory data :=
  ⟨rfl, rfl⟩

/-! ## The month axis -/

/-- C1: when the fetches succeed and the projection provider answers with status
`"success"`, the chart labels built by `load_userdata` are strictly increasing and hold
exactly the months that occur in the history, in the projection payload `all_months`, or
among the expected months `0..duration`. -/
theorem load_userdata_labels (sv : Services) (s : PageState) (plan : FinancialPlan)
    (history : List HistoryEntry) (u : User) (proj : RegressionData)
    (hf : FetchesSucceed sv plan history u) (hp : ProjectionSucceeds sv plan history proj) :
    List.Pairwise (fun a b : Int => a < b) (load_userdata sv s).chartData.labels ∧
      ∀ m : Int, m ∈ (load_userdata sv s).chartData.labels ↔
        (m ∈ history.map HistoryEntry.month ∨ m ∈ proj.all_months ∨
          (0 ≤ m ∧ m ≤ plan.duration)) := by
  rw [load_userdata_chart sv s plan history u proj hf hp]
  refine ⟨allMonths_strict _ _ _, ?_⟩
  intro m
  simp only [buildChart, mem_allMonths, accumulate_months, expectedPointsFor,
    mem_getExpectedPoints_months]
  have hm : m ∈ (sortHistory history).map HistoryEntry.month ↔
      m ∈ history.map HistoryEntry.month :=
    ((sortHistory_perm history).map _).mem_iff
  rw [hm]

/-- Instance of C1 on the sample data with a projection that runs past the plan. -/
theorem load_userdata_labels_witness :
    FetchesSucceed (sampleServices (projectionOk projectionBeyondPlan)) samplePlan
        sampleHistory sampleUser ∧
      ProjectionSucceeds (sampleServices (projectionOk projectionBeyondPlan)) samplePlan
        sampleHistory projectionBeyondPlan ∧
      (List.Pairwise (fun a b : Int => a < b)
          (load_userdata (sampleServices (projectionOk projectionBeyondPlan))
            initialState).chartData.labels ∧
        ∀ m : Int,
          m ∈ (load_userdata (sampleServices (projectionOk projectionBeyondPlan))
                initialState).chartData.labels ↔
            (m ∈ sampleHistory.map HistoryEntry.month ∨ m ∈ projectionBeyondPlan.all_months ∨
              (0 ≤ m ∧ m ≤ samplePlan.duration))) :=
  ⟨sampleServices_fetches _, sampleServices_projection _,
    load_userdata_labels _ initialState samplePlan sampleHistory sampleUser projectionBeyondPlan
      (sampleServices_fetches _) (sampleServices_projection _)⟩

/-! ## Projection failure -/

/-- C5 (the code falls short of it): when the fetches succeed and the projection provider
answers with a status other than `"success"`, `load_userdata` shows the provider message
as a toast and then ends in the page-level error state `"fetch_error"`, without having
set any chart. -/
theorem load_userdata_projection_failure (sv : Services) (s : PageState)
    (plan : FinancialPlan) (history : List HistoryEntry) (u : User)
    (hf : FetchesSucceed sv plan history u) (hp : ProjectionFails sv plan history) :
    (load_userdata sv s).error = some "fetch_error" ∧
      (load_userdata sv s).message = some "An error occurred while fetching data." ∧
      (load_userdata sv s).chartData = s.chartData ∧
      (load_userdata sv s).toasts =
        s.toasts ++ [(sv.get_points_regression (regressionRequest plan history)).message] := by
  obtain ⟨h1, h2, h3, h4, h5, h6, h7⟩ := hf
  have h3' : ¬ (sv.getHistory.status ≠ "success" ∧ sv.getHistory.status ≠ "not_found") := by
    rcases h3 with h | h <;> simp [h]
  simp only [ProjectionFails, regressionRequest] at hp
  simp only [regressionRequest, load_userdata, load_userdata.tryBlock, h1, h2, h3', h4, h5,
    h6, h7, hp, ne_eq, not_true_eq_false, not_false_eq_true, if_false, if_true]
  cases hfind : plan.expenses.find? (fun expense => expense.type == "savings") <;>
    exact ⟨rfl, rfl, rfl, rfl⟩

/-- Instance of the projection failure: the sample data with a network error of the
projection provider. -/
theorem load_userdata_projection_failure_witness :
    FetchesSucceed (sampleServices projectionNetworkError) samplePlan sampleHistory
        sampleUser ∧
      ProjectionFails (sampleServices projectionNetworkError) samplePlan sampleHistory ∧
      (load_userdata (sampleServices projectionNetworkError) initialState).error
        = some "fetch_error" ∧
      (load_userdata (sampleServices projectionNetworkError) initialState).chartData
        = initialState.chartData ∧
      (load_userdata (sampleServices projectionNetworkError) initialState).toasts
        = ["A network error occurred. Please check your connection."] :=
  have h := load_userdata_projection_failure (sampleServices projectionNetworkError)
    initialState samplePlan sampleHistory sampleUser (sampleServices_fetches _)
    (by unfold ProjectionFails; decide)
  ⟨sampleServices_fetches _, by unfold ProjectionFails; decide, h.1, h.2.2.1, h.2.2.2⟩

/-! ## Order and content of the series -/

/-- Whether the `try` block completes or throws, the chart of the state it reaches is
either the chart of the starting state or a chart assembled by `buildChart`. -/
theorem tryBlock_chart_cases (sv : Services) (s t : PageState) :
    (load_userdata.tryBlock sv s = Except.ok t ∨ load_userdata.tryBlock sv s = Except.error t) →
      (t.chartData = s.chartData ∨
        ∃ months progress proj ex goal, t.chartData = buildChart months progress proj ex goal) := by
  unfold load_userdata.tryBlock
  simp only
  repeat' split
  all_goals
    rintro (h | h) <;> cases h
    first
      | exact Or.inl rfl
      | exact Or.inr ⟨_, _, _, _, _, rfl⟩

/-- Whatever the services answer, the chart of the final state is either the chart of
the starting state or a chart assembled by `buildChart`. -/
theorem load_userdata_chart_cases (sv : Services) (s : PageState) :
    (load_userdata sv s).chartData = s.chartData ∨
      ∃ months progress proj ex goal,
        (load_userdata sv s).chartData = buildChart months progress proj ex goal := by
  unfold load_userdata
  cases h : load_userdata.tryBlock sv s with
  | ok t => exact tryBlock_chart_cases sv s t (Or.inl h)
  | error t => exact tryBlock_chart_cases sv s t (Or.inr h)

/-- C6: every chart that `load_userdata` produces lists its series in the order
Actual Progress, Savings Trend, Expected Progress, Goal.  For every input the final chart
is either the untouched chart of the starting state or has exactly this series order, and
it has this order whenever the fetches and the projection succeed. -/
theorem load_userdata_series_order (sv : Services) (s : PageState) :
    ((load_userdata sv s).chartData = s.chartData ∨
      (load_userdata sv s).chartData.seriesNames
        = ["Actual Progress", "Savings Trend", "Expected Progress", "Goal"]) ∧
    (∀ (plan : FinancialPlan) (history : List HistoryEntry) (u : User) (proj : RegressionData),
      FetchesSucceed sv plan history u → ProjectionSucceeds sv plan history proj →
      (load_userdata sv s).chartData.seriesNames
        = ["Actual Progress", "Savings Trend", "Expected Progress", "Goal"]) := by
  constructor
  · rcases load_userdata_chart_cases sv s with h | ⟨ms, ps, proj, ex, g, h⟩
    · exact Or.inl h
    · exact Or.inr (by rw [h]; rfl)
  · intro plan history u proj hf hp
    rw [load_userdata_chart sv s plan history u proj hf hp]
    rfl

/-- Instance of C6 on the sample data. -/
theorem load_userdata_series_order_witness :
    (load_userdata (sampleServices (projectionOk projectionWithinPlan))
        initialState).chartData.seriesNames
      = ["Actual Progress", "Savings Trend", "Expected Progress", "Goal"] :=
  (load_userdata_series_order (sampleServices (projectionOk projectionWithinPlan))
      initialState).2 samplePlan sampleHistory sampleUser projectionWithinPlan
    (sampleServices_fetches _) (sampleServices_projection _)

/-- C7: when the fetches and the projection succeed, the Goal series of the chart has
exactly one value per label and every value equals the goal amount of the plan. -/
theorem load_userdata_goal_series (sv : Services) (s : PageState) (plan : FinancialPlan)
    (history : List HistoryEntry) (u : User) (proj : RegressionData)
    (hf : FetchesSucceed sv plan history u) (hp : ProjectionSucceeds sv plan history proj) :
    ∃ data : List Cell,
      (load_userdata sv s).chartData.series "Goal" = some data ∧
      data.length = (load_userdata sv s).chartData.labels.length ∧
      ∀ c ∈ data, c = Cell.num (JSNum.fin plan.goal) := by
  rw [load_userdata_chart sv s plan history u proj hf hp]
  refine ⟨_, rfl, ?_, ?_⟩
  · simp [buildChart]
  · intro c hc
    simp only [List.mem_map] at hc
    obtain ⟨_, _, rfl⟩ := hc
    rfl

/-- Instance of C7 on the sample data. -/
theorem load_userdata_goal_series_witness :
    ∃ data : List Cell,
      (load_userdata (sampleServices (projectionOk projectionBeyondPlan))
        initialState).chartData.series "Goal" = some data ∧
      data.length = (load_userdata (sampleServices (projectionOk projectionBeyondPlan))
        initialState).chartData.labels.length ∧
      ∀ c ∈ data, c = Cell.num (JSNum.fin samplePlan.goal) :=
  load_userdata_goal_series _ initialState samplePlan sampleHistory sampleUser
    projectionBeyondPlan (sampleServices_fetches _) (sampleServices_projection _)

/-! ## The actual-progress series -/

/-- The running totals collected by the `forEach`: entry `k` is the starting total plus
the savings of the first `k + 1` entries. -/
theorem accumulate_progress_foldl (h : List HistoryEntry) :
    ∀ (ms : List Int) (ps : List JSNum) (a : JSNum),
      (h.foldl
        (fun (acc : Accumulated) (e : HistoryEntry) =>
          ({ months := acc.months ++ [e.month]
             progress := acc.progress ++ [acc.a_saving + JSNum.fin e.saving]
             a_saving := acc.a_saving + JSNum.fin e.saving } : Accumulated))
        { months := ms, progress := ps, a_saving := a }).progress
        = ps ++ (List.range h.length).map
            (fun (k : Nat) => JSNum.sumFrom a ((h.take (k + 1)).map HistoryEntry.saving)) := by
  induction h with
  | nil => intro ms ps a; simp
  | cons e t ih =>
    intro ms ps a
    rw [List.foldl_cons, ih, List.length_cons, List.range_succ_eq_map]
    simp [Function.comp_def, JSNum.sumFrom]

/-- Entry `k` of the array `progress` is the running total of the savings of the first
`k + 1` entries of the sorted history. -/
theorem accumulate_progress_getElem (h : List HistoryEntry) (k : Nat) (hk : k < h.length) :
    (accumulate h).progress[k]?
      = some (runningTotal ((h.take (k + 1)).map HistoryEntry.saving)) := by
  have e := accumulate_progress_foldl h [] [] (JSNum.fin 0)
  simp only [List.nil_append] at e
  rw [accumulate, e, List.getElem?_map, List.getElem?_range hk]
  rfl

/-- In a list whose months strictly increase, the entries up to the month of entry `k`
are the first `k + 1` entries. -/
theorem filter_le_month_eq_take :
    ∀ (l : List HistoryEntry), (l.map HistoryEntry.month).Pairwise (fun a b : Int => a < b) →
      ∀ (k : Nat) (hk : k < l.length),
        l.filter (fun e => decide (e.month ≤ (l.get ⟨k, hk⟩).month)) = l.take (k + 1) := by
  intro l
  induction l with
  | nil => intro _ k hk; exact absurd hk (Nat.not_lt_zero k)
  | cons e t ih =>
    intro hp k hk
    rw [List.map_cons, List.pairwise_cons] at hp
    obtain ⟨hlt, hpt⟩ := hp
    cases k with
    | zero =>
      have hnone : t.filter (fun x => decide (x.month ≤ e.month)) = [] := by
        rw [List.filter_eq_nil_iff]
        intro x hx
        have := hlt x.month (List.mem_map_of_mem _ hx)
        simp only [decide_eq_true_eq, not_le]
        exact this
      simp [List.filter_cons, hnone]
    | succ k =>
      have hk' : k < t.length := by simpa using hk
      have hle : e.month ≤ (t.get ⟨k, hk'⟩).month :=
        le_of_lt (hlt _ (List.mem_map_of_mem _ (List.get_mem t k hk')))
      have := ih hpt k hk'
      simp only [List.get_cons_succ, List.filter_cons, hle, decide_True, if_true,
        List.take_succ_cons, this]

/-- The sorted history is ordered by month. -/
theorem sortHistory_sorted (h : List HistoryEntry) :
    ((sortHistory h).map HistoryEntry.month).Pairwise (fun a b : Int => a ≤ b) := by
  have hs : List.Sorted (fun a b : HistoryEntry => a.month ≤ b.month) (sortHistory h) :=
    @List.sorted_insertionSort HistoryEntry (fun a b => a.month ≤ b.month) _
      ⟨fun a b => le_total a.month b.month⟩ ⟨fun _ _ _ hab hbc => le_trans hab hbc⟩ h
  exact List.pairwise_map.mpr hs

/-- With pairwise distinct months, the months of the sorted history strictly increase. -/
theorem sortHistory_strict (h : List HistoryEntry) (hd : (h.map HistoryEntry.month).Nodup) :
    ((sortHistory h).map HistoryEntry.month).Pairwise (fun a b : Int => a < b) := by
  have hn : ((sortHistory h).map HistoryEntry.month).Nodup :=
    ((sortHistory_perm h).map _).nodup_iff.mpr hd
  exact List.Sorted.lt_of_le (sortHistory_sorted h) hn

/-- Each cell of `completeProgress`: the cumulative saving of the month when the history
has an entry for it, `null` otherwise. -/
theorem completeProgress_cell (h : List HistoryEntry) (hd : (h.map HistoryEntry.month).Nodup)
    (m : Int) :
    (if indexOf (accumulate (sortHistory h)).months m ≠ -1 then
        jsIndex (accumulate (sortHistory h)).progress
          (indexOf (accumulate (sortHistory h)).months m).toNat
      else Cell.null)
      = if m ∈ h.map HistoryEntry.month then Cell.num (cumulativeSaving h m)
        else Cell.null := by
  have hmem : m ∈ (sortHistory h).map HistoryEntry.month ↔ m ∈ h.map HistoryEntry.month :=
    ((sortHistory_perm h).map _).mem_iff
  rw [accumulate_months]
  by_cases hm : m ∈ h.map HistoryEntry.month
  · have hm' := hmem.mpr hm
    have hk : List.indexOf m ((sortHistory h).map HistoryEntry.month)
        < ((sortHistory h).map HistoryEntry.month).length := List.indexOf_lt_length.mpr hm'
    have hk' : List.indexOf m ((sortHistory h).map HistoryEntry.month)
        < (sortHistory h).length := by simpa using hk
    have hget : ((sortHistory h).get ⟨_, hk'⟩).month = m := by
      have e := List.getElem_indexOf hk
      rw [List.getElem_map] at e
      simpa only [List.get_eq_getElem] using e
    have hne : ((List.indexOf m ((sortHistory h).map HistoryEntry.month) : Nat) : Int) ≠ -1 := by
      omega
    rw [if_pos hm]
    simp only [indexOf, if_pos hm', hne, ne_eq, not_false_eq_true, if_true, Int.toNat_ofNat,
      jsIndex, accumulate_progress_getElem _ _ hk']
    rw [← filter_le_month_eq_take _ (sortHistory_strict h hd) _ hk', hget]
    rfl
  · have hm' : m ∉ (sortHistory h).map HistoryEntry.month := fun x => hm (hmem.mp x)
    simp [indexOf, hm, hm']

/-- C3: when the fetches and the projection succeed and the months of the history are
pairwise distinct, the Actual Progress series has one cell per label, and the cell at
index `i` is the cumulative saving recorded for month `labels[i]` when the history has an
entry for that month, and `null` otherwise.  The cumulative saving of a month is the
running total `0 + s1 + s2 + ...` of the savings of the entries up to that month, added
with the JavaScript `+` in the order of the months, as the code adds them. -/
theorem load_userdata_actual_series (sv : Services) (s : PageState) (plan : FinancialPlan)
    (history : List HistoryEntry) (u : User) (proj : RegressionData)
    (hf : FetchesSucceed sv plan history u) (hp : ProjectionSucceeds sv plan history proj)
    (hd : (history.map HistoryEntry.month).Nodup) :
    ∃ data : List Cell,
      (load_userdata sv s).chartData.series "Actual Progress" = some data ∧
      data.length = (load_userdata sv s).chartData.labels.length ∧
      ∀ (i : Nat) (m : Int), (load_userdata sv s).chartData.labels[i]? = some m →
        data[i]? = some
          (if m ∈ history.map HistoryEntry.month then Cell.num (cumulativeSaving history m)
          else Cell.null) := by
  rw [load_userdata_chart sv s plan history u proj hf hp]
  refine ⟨_, rfl, ?_, ?_⟩
  · simp [buildChart, completeProgress]
  · intro i m hi
    simp only [buildChart] at hi
    simp only [buildChart, completeProgress, List.getElem?_map, hi, Option.map_some']
    rw [completeProgress_cell history hd m]

/-- Instance of C3 on the sample data, whose two entries have the months 2 and 1. -/
theorem load_userdata_actual_series_witness :
    (sampleHistory.map HistoryEntry.month).Nodup ∧
    ∃ data : List Cell,
      (load_userdata (sampleServices (projectionOk projectionBeyondPlan))
        initialState).chartData.series "Actual Progress" = some data ∧
      data.length = (load_userdata (sampleServices (projectionOk projectionBeyondPlan))
        initialState).chartData.labels.length ∧
      ∀ (i : Nat) (m : Int),
        (load_userdata (sampleServices (projectionOk projectionBeyondPlan))
          initialState).chartData.labels[i]? = some m →
        data[i]? = some
          (if m ∈ sampleHistory.map HistoryEntry.month then
            Cell.num (cumulativeSaving sampleHistory m)
          else Cell.null) :=
  ⟨by decide,
    load_userdata_actual_series _ initialState samplePlan sampleHistory sampleUser
      projectionBeyondPlan (sampleServices_fetches _) (sampleServices_projection _)
      (by decide)⟩

/-! ## Series that are not aligned with the month axis -/

/-- C2 (the code falls short of it): with a projection that runs two months past a
three-month plan the axis has six labels while the Expected Progress series has four
cells; with a projection over the history months only the axis has four labels while the
Savings Trend series has two cells.  Actual Progress and Goal match the axis. -/
theorem load_userdata_series_length_mismatch :
    (load_userdata (sampleServices (projectionOk projectionBeyondPlan))
        initialState).chartData.labels = [0, 1, 2, 3, 4, 5] ∧
      ((load_userdata (sampleServices (projectionOk projectionBeyondPlan))
        initialState).chartData.series "Actual Progress").map List.length = some 6 ∧
      ((load_userdata (sampleServices (projectionOk projectionBeyondPlan))
        initialState).chartData.series "Savings Trend").map List.length = some 6 ∧
      ((load_userdata (sampleServices (projectionOk projectionBeyondPlan))
        initialState).chartData.series "Expected Progress").map List.length = some 4 ∧
      ((load_userdata (sampleServices (projectionOk projectionBeyondPlan))
        initialState).chartData.series "Goal").map List.length = some 6 ∧
      (load_userdata (sampleServices (projectionOk projectionHistoryOnly))
        initialState).chartData.labels = [0, 1, 2, 3] ∧
      ((load_userdata (sampleServices (projectionOk projectionHistoryOnly))
        initialState).chartData.series "Savings Trend").map List.length = some 2 := by
  decide

/-- C4 (the code falls short of it): the Expected Progress data is the array of
`getExpectedPoints` as it is, indexed by month number and not by label.  Past the plan
(label 4 of a three-month plan) the series has no cell at all instead of `null`; when
the axis starts at month -1 the value of month 0 sits under label -1 and the value of
month 1 under label 0. -/
theorem load_userdata_expected_series_unaligned :
    samplePlan.duration = 3 ∧
      (load_userdata (sampleServices (projectionOk projectionBeyondPlan))
        initialState).chartData.labels = [0, 1, 2, 3, 4, 5] ∧
      (load_userdata (sampleServices (projectionOk projectionBeyondPlan))
        initialState).chartData.series "Expected Progress"
        = some [Cell.num (JSNum.fin 100), Cell.num (JSNum.fin 300), Cell.num (JSNum.fin 500),
            Cell.num (JSNum.fin 700)] ∧
      (load_userdata (sampleServices (projectionOk projectionFromMinusOne))
        initialState).chartData.labels = [-1, 0, 1, 2, 3] ∧
      (load_userdata (sampleServices (projectionOk projectionFromMinusOne))
        initialState).chartData.series "Expected Progress"
        = some [Cell.num (JSNum.fin 100), Cell.num (JSNum.fin 300), Cell.num (JSNum.fin 500),
            Cell.num (JSNum.fin 700)] := by
  decide!

/-! ## `calculateAverageExpenses` -/

/-- Effect of one record on the sum and the count of a listed category. -/
theorem addRecord_apply (acc : CategoryTotals) (r : Expense) (c : String)
    (hc : c ∈ categories) :
    (calculateAverageExpenses.addRecord acc r).categorySums c
        = (if r.type = c then acc.categorySums c + JSNum.fin r.expense
           else acc.categorySums c) ∧
      (calculateAverageExpenses.addRecord acc r).categoryCounts c
        = acc.categoryCounts c + (if r.type = c then 1 else 0) := by
  unfold calculateAverageExpenses.addRecord
  by_cases hr : r.type ∈ categories
  · rw [if_pos hr]
    by_cases hcr : c = r.type
    · simp [hcr]
    · have hrc : ¬ r.type = c := fun h => hcr h.symm
      simp [hcr, hrc]
  · rw [if_neg hr]
    have hrc : ¬ r.type = c := fun h => hr (h ▸ hc)
    simp [hrc]

/-- Effect of the records of one entry on the sum and the count of a listed category. -/
theorem addRecords_apply (c : String) (hc : c ∈ categories) :
    ∀ (rs : List Expense) (acc : CategoryTotals),
      (rs.foldl calculateAverageExpenses.addRecord acc).categorySums c
          = JSNum.sumFrom (acc.categorySums c)
              ((rs.filter (fun r => decide (r.type = c))).map Expense.expense) ∧
        (rs.foldl calculateAverageExpenses.addRecord acc).categoryCounts c
          = acc.categoryCounts c + (rs.filter (fun r => decide (r.type = c))).length := by
  intro rs
  induction rs with
  | nil => intro acc; simp [JSNum.sumFrom]
  | cons r t ih =>
    intro acc
    obtain ⟨h1, h2⟩ := addRecord_apply acc r c hc
    obtain ⟨i1, i2⟩ := ih (calculateAverageExpenses.addRecord acc r)
    rw [List.foldl_cons, i1, i2, h1, h2]
    by_cases hr : r.type = c
    · simp only [List.filter_cons, hr, decide_True, if_true, List.map_cons,
        List.length_cons, JSNum.sumFrom, List.foldl_cons]
      constructor
      · trivial
      · omega
    · simp [List.filter_cons, hr]

/-- Adding two lists of amounts one after the other. -/
theorem JSNum.sumFrom_append (a : JSNum) (xs ys : List ℚ) :
    JSNum.sumFrom a (xs ++ ys) = JSNum.sumFrom (JSNum.sumFrom a xs) ys := by
  simp [JSNum.sumFrom, List.foldl_append]

/-- Effect of a whole history on the sum and the count of a listed category. -/
theorem addEntries_apply (c : String) (hc : c ∈ categories) :
    ∀ (h : List HistoryEntry) (acc : CategoryTotals),
      (h.foldl (fun acc entry => entry.expenses.foldl calculateAverageExpenses.addRecord acc)
          acc).categorySums c
          = JSNum.sumFrom (acc.categorySums c)
              ((h.flatMap (fun e => recordsOfEntry e c)).map Expense.expense) ∧
        (h.foldl (fun acc entry => entry.expenses.foldl calculateAverageExpenses.addRecord acc)
          acc).categoryCounts c = acc.categoryCounts c + categoryRecords h c := by
  intro h
  induction h with
  | nil => intro acc; simp [JSNum.sumFrom, categoryRecords]
  | cons e t ih =>
    intro acc
    obtain ⟨h1, h2⟩ := addRecords_apply c hc e.expenses acc
    obtain ⟨i1, i2⟩ := ih (e.expenses.foldl calculateAverageExpenses.addRecord acc)
    rw [List.foldl_cons, i1, i2, h1, h2]
    constructor
    · rw [List.flatMap_cons, List.map_append, JSNum.sumFrom_append]
      rfl
    · simp [categoryRecords, recordsOfEntry, add_assoc]

/-- After both loops, the sum and the count of a listed category are the total amount
and the number of its records. -/
theorem totals_apply (h : List HistoryEntry) (c : String) (hc : c ∈ categories) :
    (calculateAverageExpenses.totals h).categorySums c = categoryAmount h c ∧
      (calculateAverageExpenses.totals h).categoryCounts c = categoryRecords h c := by
  obtain ⟨h1, h2⟩ := addEntries_apply c hc h
    { categorySums := fun _ => JSNum.fin 0, categoryCounts := fun _ => 0 }
  simp only [zero_add] at h2
  exact ⟨h1, h2⟩

/-- The item a mapped category list reports for one of its categories. -/
theorem valueOf_map (f : String → LabelledValue) (hf : ∀ x, (f x).label = x) (c : String) :
    ∀ l : List String, c ∈ l → valueOf (l.map f) c = some (f c).value := by
  intro l
  induction l with
  | nil => intro h; simp at h
  | cons x t ih =>
    intro h
    by_cases hx : x = c
    · simp [valueOf, List.find?_cons, hf, hx]
    · have ht : c ∈ t := by
        rcases List.mem_cons.mp h with h | h
        · exact absurd h.symm hx
        · exact h
      have e := ih ht
      have hb : ((f x).label == c) = false := by simp [hf, hx]
      simp only [valueOf, List.map_cons, List.find?_cons, hb] at e ⊢
      exact e

/-- The value `calculateAverageExpenses` reports for a listed category with at least one
record: total amount over number of records, over the income, times 100, each taken with
the JavaScript operation. -/
theorem calculateAverageExpenses_apply (h : List HistoryEntry) (income : ℚ) (c : String)
    (hc : c ∈ categories) (hn : 0 < categoryRecords h c) :
    valueOf (calculateAverageExpenses h income) c
      = some (categoryAmount h c / JSNum.fin (categoryRecords h c : ℚ) / JSNum.fin income
          * JSNum.fin 100) := by
  obtain ⟨h1, h2⟩ := totals_apply h c hc
  unfold calculateAverageExpenses
  rw [valueOf_map _ (fun _ => rfl) c categories hc]
  simp only [h1, h2, gt_iff_lt, hn, if_true]

/-- When no entry holds two records of a category, its records are as many as the
entries that contain it. -/
theorem categoryRecords_eq_entriesContaining (c : String) :
    ∀ h : List HistoryEntry, (∀ e ∈ h, (recordsOfEntry e c).length ≤ 1) →
      categoryRecords h c = entriesContaining h c := by
  intro h
  induction h with
  | nil => intro _; rfl
  | cons e t ih =>
    intro hone
    have h1 := hone e (List.mem_cons_self e t)
    have ht := ih (fun x hx => hone x (List.mem_cons_of_mem e hx))
    simp only [categoryRecords, entriesContaining, List.map_cons, List.sum_cons,
      List.filter_cons] at ht ⊢
    by_cases hnil : recordsOfEntry e c = []
    · simp [hnil, ht]
    · have hlen : (recordsOfEntry e c).length = 1 := by
        have : 0 < (recordsOfEntry e c).length := List.length_pos.mpr hnil
        omega
      simp [hnil, hlen, ht]
      omega

/-- C10, as the code has it: for every history in which no entry holds more than one
record of category `c`, every income and every listed category `c` contained in at least
one entry, `calculateAverageExpenses` reports for `c` the sum of the amounts of all records
of `c`, divided by the number of entries that contain `c`, divided by the income and
multiplied by 100, where the sum, the two quotients and the product are taken with the
JavaScript operations in this order; the entries food 100 and food 300 with income 1000
give 20. -/
theorem calculateAverageExpenses_per_entry (history : List HistoryEntry) (income : ℚ)
    (c : String) (hc : c ∈ categories)
    (hocc : 0 < entriesContaining history c)
    (hone : ∀ e ∈ history, (recordsOfEntry e c).length ≤ 1) :
    valueOf (calculateAverageExpenses history income) c
        = some (categoryAmount history c / JSNum.fin (entriesContaining history c : ℚ)
            / JSNum.fin income * JSNum.fin 100) ∧
      valueOf (calculateAverageExpenses sampleHistory 1000) "food" = some (JSNum.fin 20) := by
  have he := categoryRecords_eq_entriesContaining c history hone
  constructor
  · rw [← he]
    exact calculateAverageExpenses_apply history income c hc (he ▸ hocc)
  · decide!

/-- Instance of the amended C10 on the sample history: food 100 and food 300, income 1000. -/
theorem calculateAverageExpenses_per_entry_witness :
    valueOf (calculateAverageExpenses sampleHistory 1000) "food"
        = some (categoryAmount sampleHistory "food"
            / JSNum.fin (entriesContaining sampleHistory "food" : ℚ)
            / JSNum.fin 1000 * JSNum.fin 100) ∧
      valueOf (calculateAverageExpenses sampleHistory 1000) "food" = some (JSNum.fin 20) :=
  calculateAverageExpenses_per_entry sampleHistory 1000 "food" (by decide)
    (by decide) (by decide)

/-- C10 fails as stated: one entry holding the records food 100 and food 300, with income
1000, is reported as 20 (the amount 400 over two records), whereas the sum over the number
of entries that contain food (one) as percent of the income is 40. -/
theorem calculateAverageExpenses_per_entry_counterexample :
    (0 : ℚ) < 1000 ∧ "food" ∈ categories ∧
      0 < entriesContaining historyWithRepeatedCategory "food" ∧
      valueOf (calculateAverageExpenses historyWithRepeatedCategory 1000) "food"
        = some (JSNum.fin 20) ∧
      categoryAmount historyWithRepeatedCategory "food"
          / JSNum.fin (entriesContaining historyWithRepeatedCategory "food" : ℚ)
          / JSNum.fin 1000 * JSNum.fin 100
        = JSNum.fin 40 ∧
      valueOf (calculateAverageExpenses historyWithRepeatedCategory 1000) "food"
        ≠ some (categoryAmount historyWithRepeatedCategory "food"
          / JSNum.fin (entriesContaining historyWithRepeatedCategory "food" : ℚ)
          / JSNum.fin 1000 * JSNum.fin 100) := by
  decide!

/-! ## `calculateAverageExpenses`: categories without records, order, and the income -/

/-- A category none of whose records occurs in the history has no record counted. -/
theorem categoryRecords_eq_zero (c : String) :
    ∀ h : List HistoryEntry, (∀ e ∈ h, ∀ r ∈ e.expenses, r.type ≠ c) →
      categoryRecords h c = 0 := by
  intro h hz
  unfold categoryRecords
  apply List.sum_eq_zero
  intro n hn
  obtain ⟨e, he, rfl⟩ := List.mem_map.mp hn
  have : recordsOfEntry e c = [] := by
    unfold recordsOfEntry
    rw [List.filter_eq_nil_iff]
    intro r hr
    simpa using hz e he r hr
  simp [this]

/-- The value reported for a listed category without records is 0, whatever the income. -/
theorem calculateAverageExpenses_apply_zero (h : List HistoryEntry) (income : ℚ) (c : String)
    (hc : c ∈ categories) (hn : categoryRecords h c = 0) :
    valueOf (calculateAverageExpenses h income) c = some (JSNum.fin 0) := by
  obtain ⟨_, h2⟩ := totals_apply h c hc
  unfold calculateAverageExpenses
  rw [valueOf_map _ (fun _ => rfl) c categories hc]
  simp [h2, hn]

/-- C11: for every income, `calculateAverageExpenses` reports 0 for every listed category
that has no record in the history; for the empty history it reports 0 for all six
categories. -/
theorem calculateAverageExpenses_no_occurrence (history : List HistoryEntry) (income : ℚ)
    (c : String) (hc : c ∈ categories)
    (hz : ∀ e ∈ history, ∀ r ∈ e.expenses, r.type ≠ c) :
    valueOf (calculateAverageExpenses history income) c = some (JSNum.fin 0) ∧
      calculateAverageExpenses [] income
        = categories.map (fun category => { label := category, value := JSNum.fin 0 }) :=
  ⟨calculateAverageExpenses_apply_zero history income c hc
      (categoryRecords_eq_zero c history hz), rfl⟩

/-- Instance of C11: the sample history has food records only, so housing reports 0, also
for the income 0. -/
theorem calculateAverageExpenses_no_occurrence_witness :
    valueOf (calculateAverageExpenses sampleHistory 0) "housing" = some (JSNum.fin 0) ∧
      calculateAverageExpenses [] 0
        = categories.map (fun category => { label := category, value := JSNum.fin 0 }) :=
  calculateAverageExpenses_no_occurrence sampleHistory 0 "housing" (by decide) (by decide)

/-- C12: for every history and income, the result of `calculateAverageExpenses` has
exactly one entry per category, in the order housing, food, health, transportation,
university, non-essential. -/
theorem calculateAverageExpenses_labels (history : List HistoryEntry) (income : ℚ) :
    (calculateAverageExpenses history income).map LabelledValue.label
        = ["housing", "food", "health", "transportation", "university", "non-essential"] ∧
      (calculateAverageExpenses history income).length = 6 := by
  constructor <;> simp [calculateAverageExpenses, categories]

/-- Whatever the number, dividing it by 0 and multiplying by 100 gives `NaN` or an
infinity. -/
theorem JSNum.div_zero_not_finite (x : JSNum) :
    (x / JSNum.fin 0 * JSNum.fin 100).isFinite = false := by
  show (JSNum.mul (JSNum.div x (JSNum.fin 0)) (JSNum.fin 100)).isFinite = false
  cases x with
  | fin a =>
    by_cases h0 : a = 0
    · simp [JSNum.div, h0, JSNum.mul, JSNum.isFinite]
    · by_cases hp : 0 < a
      · simp [JSNum.div, h0, hp, JSNum.mul, JSNum.scaleInf, JSNum.isFinite]
      · simp [JSNum.div, h0, hp, JSNum.mul, JSNum.scaleInf, JSNum.isFinite]
  | posInf => simp [JSNum.div, JSNum.mul, JSNum.scaleInf, JSNum.isFinite]
  | negInf => simp [JSNum.div, JSNum.mul, JSNum.scaleInf, JSNum.isFinite]
  | nan => simp [JSNum.div, JSNum.mul, JSNum.isFinite]

/-- C13, as the code has it: for every history and every income, also an income of 0 or
below, `calculateAverageExpenses` returns a distribution with one value per category and
signals nothing.  A listed category without records reports 0 for every income; for the
income 0 a listed category with records reports `NaN` or an infinity. -/
theorem calculateAverageExpenses_any_income (history : List HistoryEntry) (income : ℚ) :
    (calculateAverageExpenses history income).map LabelledValue.label = categories ∧
      (∀ c ∈ categories, categoryRecords history c = 0 →
        valueOf (calculateAverageExpenses history income) c = some (JSNum.fin 0)) ∧
      (income = 0 → ∀ c ∈ categories, 0 < categoryRecords history c →
        ∃ v, valueOf (calculateAverageExpenses history income) c = some v ∧
          v.isFinite = false) := by
  refine ⟨by simp [calculateAverageExpenses, categories], ?_, ?_⟩
  · intro c hc hn
    exact calculateAverageExpenses_apply_zero history income c hc hn
  · intro hi c hc hn
    subst hi
    exact ⟨_, calculateAverageExpenses_apply history 0 c hc hn,
      JSNum.div_zero_not_finite _⟩

/-- Instance of the amended C13 on the sample history: with the income 0 the category
housing, which has no record, reports 0, and the category food is not finite. -/
theorem calculateAverageExpenses_any_income_witness :
    valueOf (calculateAverageExpenses sampleHistory 0) "housing" = some (JSNum.fin 0) ∧
      (∃ v, valueOf (calculateAverageExpenses sampleHistory 0) "food" = some v ∧
        v.isFinite = false) :=
  ⟨(calculateAverageExpenses_any_income sampleHistory 0).2.1 "housing" (by decide) (by decide),
    (calculateAverageExpenses_any_income sampleHistory 0).2.2 rfl "food" (by decide)
      (by decide)⟩

/-- C13 fails as stated: with the income 0 the sample history (food 100 and food 300) is
answered with a full distribution in which food is `Infinity`; a single food record of
amount 0 gives `NaN`; and with the income -1000 the sample history gives food = -20. -/
theorem calculateAverageExpenses_any_income_counterexample :
    (0 : ℚ) ≤ 0 ∧
      (calculateAverageExpenses sampleHistory 0).map LabelledValue.label = categories ∧
      valueOf (calculateAverageExpenses sampleHistory 0) "food" = some JSNum.posInf ∧
      valueOf (calculateAverageExpenses historyWithZeroAmount 0) "food" = some JSNum.nan ∧
      valueOf (calculateAverageExpenses sampleHistory (-1000)) "food"
        = some (JSNum.fin (-20)) := by
  decide!

/-! ## `splice` on the list of an area -/

/-- Inserting at a position inside the list splits the list there. -/
theorem insertIdx_eq_take_drop (x : String) :
    ∀ (n : Nat) (l : List String), n ≤ l.length →
      l.insertIdx n x = l.take n ++ x :: l.drop n := by
  intro n
  induction n with
  | zero => intro l _; simp [List.insertIdx_zero]
  | succ n ih =>
    intro l h
    cases l with
    | nil => simp at h
    | cons a t =>
      have ht : n ≤ t.length := by simpa using h
      simp [List.insertIdx_succ_cons, ih t ht]

/-- The call `xs.splice(i, 1)` removes the element at index `i`, and nothing when `i` is
past the end. -/
theorem splice_remove (xs : List String) (i : Nat) :
    splice xs (i : Int) 1 [] = xs.eraseIdx i := by
  have hneg : ¬ ((i : Int) < 0) := by omega
  simp only [splice, hneg, if_false, Int.toNat_ofNat, List.append_nil]
  by_cases h : i < xs.length
  · have h1 : min i xs.length = i := by omega
    have h2 : min 1 (xs.length - i) = 1 := by omega
    rw [h1, h2, List.eraseIdx_eq_take_drop_succ]
  · have h1 : min i xs.length = xs.length := by omega
    have h2 : min 1 (xs.length - xs.length) = 0 := by omega
    have h3 : xs.length ≤ i := by omega
    rw [h1, h2, List.eraseIdx_of_length_le h3]
    simp

/-- The call `xs.splice(d, 0, x)` inserts `x` at index `d`, clamped to the end of the
list. -/
theorem splice_insert (xs : List String) (d : Nat) (x : String) :
    splice xs (d : Int) 0 [x] = xs.insertIdx (min d xs.length) x := by
  have hneg : ¬ ((d : Int) < 0) := by omega
  rw [insertIdx_eq_take_drop x _ xs (Nat.min_le_right _ _)]
  simp [splice, hneg]

/-- Whatever the start index, `xs.splice(start, 0, x)` puts `x` somewhere into `xs` and
keeps the other elements in order. -/
theorem splice_insert_split (xs : List String) (start : Int) (x : String) :
    ∃ k, k ≤ xs.length ∧ splice xs start 0 [x] = xs.take k ++ x :: xs.drop k := by
  by_cases h : start < 0
  · exact ⟨(((xs.length : Nat) : Int) + start).toNat, by omega, by simp [splice, h]⟩
  · exact ⟨min start.toNat xs.length, Nat.min_le_right _ _, by simp [splice, h]⟩

/-- A list is a rearrangement of one of its elements followed by the rest. -/
theorem perm_cons_eraseIdx (l : List String) (i : Nat) (x : String) (h : l[i]? = some x) :
    l.Perm (x :: l.eraseIdx i) := by
  obtain ⟨hi, hx⟩ := List.getElem?_eq_some.mp h
  have hl : l = l.take i ++ x :: l.drop (i + 1) := by
    conv_lhs => rw [← List.take_append_drop i l, List.drop_eq_getElem_cons hi, hx]
  rw [List.eraseIdx_eq_take_drop_succ]
  conv_lhs => rw [hl]
  exact List.perm_middle

/-- Removing the element at `i` and inserting it anywhere with `splice` rearranges the
list. -/
theorem splice_move_perm (l : List String) (i : Nat) (start : Int) (x : String)
    (h : l[i]? = some x) :
    (splice (splice l (i : Int) 1 []) start 0 [x]).Perm l := by
  rw [splice_remove]
  obtain ⟨k, _, hk⟩ := splice_insert_split (l.eraseIdx i) start x
  rw [hk]
  have h1 : (List.take k (l.eraseIdx i) ++ x :: List.drop k (l.eraseIdx i)).Perm
      (x :: (List.take k (l.eraseIdx i) ++ List.drop k (l.eraseIdx i))) := List.perm_middle
  rw [List.take_append_drop] at h1
  exact h1.trans (perm_cons_eraseIdx l i x h).symm

/-- Putting the removed element back at its own index restores the list. -/
theorem insertIdx_eraseIdx_self (l : List String) (i : Nat) (x : String)
    (h : l[i]? = some x) : (l.eraseIdx i).insertIdx i x = l := by
  obtain ⟨hi, hx⟩ := List.getElem?_eq_some.mp h
  have hlen : i ≤ (l.eraseIdx i).length := by
    rw [List.length_eraseIdx]
    split <;> omega
  rw [insertIdx_eq_take_drop x i _ hlen, List.eraseIdx_eq_take_drop_succ]
  have h1 : List.take i (List.take i l ++ List.drop (i + 1) l) = List.take i l := by
    rw [List.take_append_of_le_length (by simp; omega)]
    simp
  have h2 : List.drop i (List.take i l ++ List.drop (i + 1) l) = List.drop (i + 1) l := by
    have hl : (List.take i l).length = i := by simp; omega
    exact List.drop_left' hl
  rw [h1, h2]
  conv_rhs => rw [← List.take_append_drop i l, List.drop_eq_getElem_cons hi, hx]

/-! ## `onDragEnd` -/

/-- A drop at another position of an existing source area stores the spliced list under
the `id` of that area. -/
theorem onDragEnd_update (s : AllocationState) (r : DropResult) (d : DraggableLocation)
    (area : Area) (hd : r.destination = some d)
    (hpos : ¬ (d.droppableId = r.source.droppableId ∧ d.index = r.source.index))
    (ha : s.areas r.source.droppableId = some area) :
    onDragEnd s r = Except.ok
      { s with
        areas := fun key =>
          if key = area.id then
            some { area with
              actionIds :=
                splice (splice area.actionIds r.source.index 1 []) d.index 0 [r.draggableId] }
          else s.areas key } := by
  simp only [onDragEnd, hd, hpos, if_false, ha]

/-- C14: for every state and every drag event whose destination area equals its source
area and whose destination index equals its source index, `onDragEnd` leaves the state
unchanged. -/
theorem onDragEnd_same_position (s : AllocationState) (r : DropResult)
    (d : DraggableLocation) (hd : r.destination = some d)
    (harea : d.droppableId = r.source.droppableId) (hindex : d.index = r.source.index) :
    onDragEnd s r = Except.ok s := by
  simp [onDragEnd, hd, harea, hindex]

/-- Instance of C14: dropping `e2` at its own index 1 of area `A`. -/
theorem onDragEnd_same_position_witness :
    onDragEnd stateOneArea
        { destination := some { droppableId := "A", index := 1 }
          source := { droppableId := "A", index := 1 }
          draggableId := "e2" }
      = Except.ok stateOneArea :=
  onDragEnd_same_position stateOneArea _ { droppableId := "A", index := 1 } rfl rfl rfl

/-- C15: for every state and every drag event without destination, `onDragEnd` leaves the
state unchanged. -/
theorem onDragEnd_no_destination (s : AllocationState) (source : DraggableLocation)
    (draggableId : String) :
    onDragEnd s { destination := none, source := source, draggableId := draggableId }
      = Except.ok s := rfl

/-- C16: for every move within one area with both indices in bounds, where the dragged id
is the element at the source index, the new list of the area is the old list with the
element at the source index removed and the dragged id inserted at the destination index
of the shortened list; the other items keep their order.  Moving `e2` from index 1 to
index 0 of `[e1, e2, e3]` gives `[e2, e1, e3]`. -/
theorem onDragEnd_within_area (s : AllocationState) (r : DropResult) (d : DraggableLocation)
    (area : Area) (src dst : Nat) (hK : s.Keyed) (hd : r.destination = some d)
    (hsame : d.droppableId = r.source.droppableId)
    (hsrc : r.source.index = (src : Int)) (hdst : d.index = (dst : Int))
    (ha : s.areas r.source.droppableId = some area)
    (hs : src < area.actionIds.length) (hdl : dst < area.actionIds.length)
    (hid : area.actionIds[src]? = some r.draggableId) :
    listAfter (onDragEnd s r) r.source.droppableId
        = some ((area.actionIds.eraseIdx src).insertIdx dst r.draggableId) ∧
      ((area.actionIds.eraseIdx src).insertIdx dst r.draggableId).eraseIdx dst
        = area.actionIds.eraseIdx src ∧
      listAfter
          (onDragEnd stateOneArea
            { destination := some { droppableId := "A", index := 0 }
              source := { droppableId := "A", index := 1 }
              draggableId := "e2" }) "A"
        = some ["e2", "e1", "e3"] := by
  refine ⟨?_, List.eraseIdx_insertIdx _ _, by decide⟩
  by_cases hindex : d.index = r.source.index
  · have hidx : dst = src := by
      have := hindex
      rw [hsrc, hdst] at this
      exact_mod_cast this
    have hnoop : onDragEnd s r = Except.ok s := by
      simp [onDragEnd, hd, hsame, hindex]
    rw [hnoop, hidx, insertIdx_eraseIdx_self _ _ _ hid]
    simp [listAfter, AllocationState.listOf, ha]
  · have hpos : ¬ (d.droppableId = r.source.droppableId ∧ d.index = r.source.index) :=
      fun h => hindex h.2
    rw [onDragEnd_update s r d area hd hpos ha, hsrc, hdst, splice_remove, splice_insert]
    have hlen : min dst (area.actionIds.eraseIdx src).length = dst := by
      rw [List.length_eraseIdx]
      split <;> omega
    simp [listAfter, AllocationState.listOf, hK _ _ ha, hlen]

/-- Instance of C16: moving `e3` from index 2 to index 0 of area `A`. -/
theorem onDragEnd_within_area_witness :
    listAfter
        (onDragEnd stateOneArea
          { destination := some { droppableId := "A", index := ((0 : Nat) : Int) }
            source := { droppableId := "A", index := ((2 : Nat) : Int) }
            draggableId := "e3" }) "A"
      = some ((["e1", "e2", "e3"].eraseIdx 2).insertIdx 0 "e3") :=
  (onDragEnd_within_area stateOneArea
    { destination := some { droppableId := "A", index := ((0 : Nat) : Int) }
      source := { droppableId := "A", index := ((2 : Nat) : Int) }
      draggableId := "e3" }
    { droppableId := "A", index := ((0 : Nat) : Int) }
    { id := "A", actionIds := ["e1", "e2", "e3"] } 2 0
    (by intro key area h
        simp only [stateOneArea] at h
        split at h
        · cases h; simp_all
        · cases h)
    rfl rfl rfl rfl rfl (by decide) (by decide) rfl).1

/-- The one-area sample state stores its area under its own id. -/
theorem stateOneArea_keyed : stateOneArea.Keyed := by
  intro key area h
  simp only [stateOneArea] at h
  split at h
  · cases h; simp_all
  · cases h

/-- The two-area sample state stores its areas under their own ids. -/
theorem stateTwoAreas_keyed : stateTwoAreas.Keyed := by
  intro key area h
  simp only [stateTwoAreas] at h
  split at h
  · cases h; simp_all
  · split at h
    · cases h; simp_all
    · cases h

/-- A drop at another position of an existing source area, with natural-number indices:
the new state, the new list of the source area, and what stays as it was. -/
theorem onDragEnd_splice (s : AllocationState) (r : DropResult) (d : DraggableLocation)
    (area : Area) (src dst : Nat) (hK : s.Keyed) (hd : r.destination = some d)
    (hpos : ¬ (d.droppableId = r.source.droppableId ∧ d.index = r.source.index))
    (hsrc : r.source.index = (src : Int)) (hdst : d.index = (dst : Int))
    (ha : s.areas r.source.droppableId = some area) :
    ∃ s', onDragEnd s r = Except.ok s' ∧
      s'.listOf r.source.droppableId
        = some ((area.actionIds.eraseIdx src).insertIdx
            (min dst (area.actionIds.eraseIdx src).length) r.draggableId) ∧
      (∀ key, key ≠ r.source.droppableId → s'.areas key = s.areas key) ∧
      s'.actions = s.actions ∧ s'.areaOrder = s.areaOrder := by
  refine ⟨_, onDragEnd_update s r d area hd hpos ha, ?_, ?_, rfl, rfl⟩
  · simp [AllocationState.listOf, hK _ _ ha, hsrc, hdst, splice_remove, splice_insert]
  · intro key hkey
    simp [hK _ _ ha, hkey]

/-! ## Moves between areas and indices out of bounds -/

/-- C17, as the code has it: for every move whose destination area differs from its
source area, with the source index in bounds, `onDragEnd` changes the source area only:
the item at the source index is removed and the dragged id is put back into the list of
the source area at the destination index, or at its end when the index is past it.  The
list of the destination area, every other area and the cards stay as they were. -/
theorem onDragEnd_cross_area (s : AllocationState) (r : DropResult) (d : DraggableLocation)
    (area : Area) (src dst : Nat) (hK : s.Keyed) (hd : r.destination = some d)
    (hdiff : d.droppableId ≠ r.source.droppableId)
    (hsrc : r.source.index = (src : Int)) (hdst : d.index = (dst : Int))
    (ha : s.areas r.source.droppableId = some area) (hs : src < area.actionIds.length) :
    ∃ s', onDragEnd s r = Except.ok s' ∧
      s'.listOf r.source.droppableId
        = some ((area.actionIds.eraseIdx src).insertIdx
            (min dst (area.actionIds.length - 1)) r.draggableId) ∧
      s'.areas d.droppableId = s.areas d.droppableId ∧
      (∀ key, key ≠ r.source.droppableId → s'.areas key = s.areas key) ∧
      s'.actions = s.actions := by
  have hpos : ¬ (d.droppableId = r.source.droppableId ∧ d.index = r.source.index) :=
    fun h => hdiff h.1
  obtain ⟨s', h1, h2, h3, h4, _⟩ := onDragEnd_splice s r d area src dst hK hd hpos hsrc hdst ha
  have hlen : (area.actionIds.eraseIdx src).length = area.actionIds.length - 1 := by
    rw [List.length_eraseIdx]
    split <;> omega
  rw [hlen] at h2
  exact ⟨s', h1, h2, h3 _ hdiff, h3, h4⟩

/-- Instance of the amended C17: dragging `a1` from index 0 of area `A` to index 1 of
area `B` in the two-area sample state. -/
theorem onDragEnd_cross_area_witness :
    ∃ s',
      onDragEnd stateTwoAreas
          { destination := some { droppableId := "B", index := ((1 : Nat) : Int) }
            source := { droppableId := "A", index := ((0 : Nat) : Int) }
            draggableId := "a1" }
        = Except.ok s' ∧
      s'.listOf "A" = some ((["a1", "a2"].eraseIdx 0).insertIdx (min 1 (2 - 1)) "a1") ∧
      s'.areas "B" = stateTwoAreas.areas "B" ∧
      (∀ key, key ≠ "A" → s'.areas key = stateTwoAreas.areas key) ∧
      s'.actions = stateTwoAreas.actions :=
  onDragEnd_cross_area stateTwoAreas
    { destination := some { droppableId := "B", index := ((1 : Nat) : Int) }
      source := { droppableId := "A", index := ((0 : Nat) : Int) }
      draggableId := "a1" }
    { droppableId := "B", index := ((1 : Nat) : Int) }
    { id := "A", actionIds := ["a1", "a2"] } 0 1
    stateTwoAreas_keyed rfl (by decide) rfl rfl rfl (by decide)

/-- C17 fails as stated: dragging `a1` from index 0 of area `A` (`[a1, a2]`) to index 1
of area `B` (`[b1, b2]`) leaves `B` as it was and `a1` in `A`, whose list becomes
`[a2, a1]`; the claim asks for `A = [a2]` and `B = [b1, a1, b2]`. -/
theorem onDragEnd_cross_area_counterexample :
    listAfter
        (onDragEnd stateTwoAreas
          { destination := some { droppableId := "B", index := 1 }
            source := { droppableId := "A", index := 0 }
            draggableId := "a1" }) "A"
      = some ["a2", "a1"] ∧
    listAfter
        (onDragEnd stateTwoAreas
          { destination := some { droppableId := "B", index := 1 }
            source := { droppableId := "A", index := 0 }
            draggableId := "a1" }) "B"
      = some ["b1", "b2"] ∧
    listAfter
        (onDragEnd stateTwoAreas
          { destination := some { droppableId := "B", index := 1 }
            source := { droppableId := "A", index := 0 }
            draggableId := "a1" }) "A"
      ≠ some ["a2"] ∧
    listAfter
        (onDragEnd stateTwoAreas
          { destination := some { droppableId := "B", index := 1 }
            source := { droppableId := "A", index := 0 }
            draggableId := "a1" }) "B"
      ≠ some ["b1", "a1", "b2"] := by
  decide

/-- C18, as the code has it: for every state that has the source area and every drag
event dropped at another position, also one whose source or destination index is past the
end of the list, `onDragEnd` signals nothing and produces a state with a new list for the
source area.  A source index past the end removes no item, and a destination index past
the end of the shortened list puts the dragged id at its end. -/
theorem onDragEnd_out_of_bounds (s : AllocationState) (r : DropResult)
    (d : DraggableLocation) (area : Area) (src dst : Nat) (hK : s.Keyed)
    (hd : r.destination = some d)
    (hpos : ¬ (d.droppableId = r.source.droppableId ∧ d.index = r.source.index))
    (hsrc : r.source.index = (src : Int)) (hdst : d.index = (dst : Int))
    (ha : s.areas r.source.droppableId = some area) :
    ∃ s', onDragEnd s r = Except.ok s' ∧
      s'.listOf r.source.droppableId
        = some ((area.actionIds.eraseIdx src).insertIdx
            (min dst (area.actionIds.eraseIdx src).length) r.draggableId) ∧
      (area.actionIds.length ≤ src → area.actionIds.eraseIdx src = area.actionIds) ∧
      ((area.actionIds.eraseIdx src).length ≤ dst →
        (area.actionIds.eraseIdx src).insertIdx
            (min dst (area.actionIds.eraseIdx src).length) r.draggableId
          = area.actionIds.eraseIdx src ++ [r.draggableId]) := by
  obtain ⟨s', h1, h2, _, _, _⟩ := onDragEnd_splice s r d area src dst hK hd hpos hsrc hdst ha
  refine ⟨s', h1, h2, fun h => List.eraseIdx_of_length_le h, ?_⟩
  intro h
  rw [Nat.min_eq_right h, List.insertIdx_length_self]

/-- Instance of the amended C18: dragging `e2` from index 1 to index 7 of the three-item
area `A`. -/
theorem onDragEnd_out_of_bounds_witness :
    ∃ s',
      onDragEnd stateOneArea
          { destination := some { droppableId := "A", index := ((7 : Nat) : Int) }
            source := { droppableId := "A", index := ((1 : Nat) : Int) }
            draggableId := "e2" }
        = Except.ok s' ∧
      s'.listOf "A"
        = some ((["e1", "e2", "e3"].eraseIdx 1).insertIdx
            (min 7 (["e1", "e2", "e3"].eraseIdx 1).length) "e2") ∧
      (["e1", "e2", "e3"].length ≤ 1 → ["e1", "e2", "e3"].eraseIdx 1 = ["e1", "e2", "e3"]) ∧
      ((["e1", "e2", "e3"].eraseIdx 1).length ≤ 7 →
        (["e1", "e2", "e3"].eraseIdx 1).insertIdx
            (min 7 (["e1", "e2", "e3"].eraseIdx 1).length) "e2"
          = ["e1", "e2", "e3"].eraseIdx 1 ++ ["e2"]) :=
  onDragEnd_out_of_bounds stateOneArea
    { destination := some { droppableId := "A", index := ((7 : Nat) : Int) }
      source := { droppableId := "A", index := ((1 : Nat) : Int) }
      draggableId := "e2" }
    { droppableId := "A", index := ((7 : Nat) : Int) }
    { id := "A", actionIds := ["e1", "e2", "e3"] } 1 7
    stateOneArea_keyed rfl (by decide) rfl rfl rfl

/-- C18 fails as stated: in the area `A = [e1, e2, e3]`, dragging `e2` from index 1 to the
destination index 7 is answered with the list `[e1, e3, e2]`, and dragging `e2` from the
source index 5 to index 0 with the list `[e2, e1, e2, e3]`; neither call throws. -/
theorem onDragEnd_out_of_bounds_counterexample :
    listAfter
        (onDragEnd stateOneArea
          { destination := some { droppableId := "A", index := 7 }
            source := { droppableId := "A", index := 1 }
            draggableId := "e2" }) "A"
      = some ["e1", "e3", "e2"] ∧
    listAfter
        (onDragEnd stateOneArea
          { destination := some { droppableId := "A", index := 0 }
            source := { droppableId := "A", index := 5 }
            draggableId := "e2" }) "A"
      = some ["e2", "e1", "e2", "e3"] := by
  decide

/-! ## What `onDragEnd` leaves alone -/

/-- C19: for every state and every drag event, the state `onDragEnd` produces has the
same cards, the same area order and, for every area other than the source area of the
event, the same area as before; the area named as destination is among them when it is
not the source area. -/
theorem onDragEnd_frame (s s' : AllocationState) (r : DropResult) (hK : s.Keyed)
    (h : onDragEnd s r = Except.ok s') :
    s'.actions = s.actions ∧ s'.areaOrder = s.areaOrder ∧
      ∀ key, key ≠ r.source.droppableId → s'.areas key = s.areas key := by
  unfold onDragEnd at h
  split at h
  · cases h; exact ⟨rfl, rfl, fun _ _ => rfl⟩
  · split at h
    · cases h; exact ⟨rfl, rfl, fun _ _ => rfl⟩
    · split at h
      · cases h
      · rename_i area ha
        cases h
        refine ⟨rfl, rfl, ?_⟩
        intro key hkey
        simp [hK _ _ ha, hkey]

/-- Instance of C19: dragging `a1` from area `A` to area `B` of the two-area sample
state. -/
theorem onDragEnd_frame_witness :
    ∃ s',
      onDragEnd stateTwoAreas
          { destination := some { droppableId := "B", index := 1 }
            source := { droppableId := "A", index := 0 }
            draggableId := "a1" }
        = Except.ok s' ∧
      s'.actions = stateTwoAreas.actions ∧ s'.areaOrder = stateTwoAreas.areaOrder ∧
        ∀ key, key ≠ "A" → s'.areas key = stateTwoAreas.areas key :=
  ⟨_, onDragEnd_update stateTwoAreas
      { destination := some { droppableId := "B", index := 1 }
        source := { droppableId := "A", index := 0 }
        draggableId := "a1" }
      { droppableId := "B", index := 1 } { id := "A", actionIds := ["a1", "a2"] }
      rfl (by decide) rfl,
    onDragEnd_frame stateTwoAreas _
      { destination := some { droppableId := "B", index := 1 }
        source := { droppableId := "A", index := 0 }
        draggableId := "a1" }
      stateTwoAreas_keyed
      (onDragEnd_update stateTwoAreas
        { destination := some { droppableId := "B", index := 1 }
          source := { droppableId := "A", index := 0 }
          draggableId := "a1" }
        { droppableId := "B", index := 1 } { id := "A", actionIds := ["a1", "a2"] }
        rfl (by decide) rfl)⟩

/-! ## The card ids `expense-1`, `expense-2`, ... are pairwise distinct -/

/-- The decimal digit characters of distinct digits are distinct. -/
theorem digitChar_inj : ∀ a, a < 10 → ∀ b, b < 10 → Nat.digitChar a = Nat.digitChar b → a = b := by
  decide

/-- Lists of digits with the same digit characters are equal. -/
theorem map_digitChar_inj :
    ∀ l₁ l₂ : List Nat, (∀ x ∈ l₁, x < 10) → (∀ x ∈ l₂, x < 10) →
      l₁.map Nat.digitChar = l₂.map Nat.digitChar → l₁ = l₂ := by
  intro l₁
  induction l₁ with
  | nil =>
    intro l₂ _ _ h
    cases l₂ with
    | nil => rfl
    | cons b t => simp at h
  | cons a t ih =>
    intro l₂ h1 h2 h
    cases l₂ with
    | nil => simp at h
    | cons b u =>
      simp only [List.map_cons, List.cons.injEq] at h
      have hab : a = b :=
        digitChar_inj a (h1 a (List.mem_cons_self a t)) b (h2 b (List.mem_cons_self b u)) h.1
      have htu : t = u :=
        ih u (fun x hx => h1 x (List.mem_cons_of_mem a hx))
          (fun x hx => h2 x (List.mem_cons_of_mem b hx)) h.2
      rw [hab, htu]

/-- The digit loop behind `toString` yields the decimal digits of a positive number, most
significant first, given more fuel than the number. -/
theorem toDigitsCore_eq_digits :
    ∀ (fuel n : Nat) (ds : List Char), n < fuel → 0 < n →
      Nat.toDigitsCore 10 fuel n ds = ((Nat.digits 10 n).reverse.map Nat.digitChar) ++ ds := by
  intro fuel
  induction fuel with
  | zero => intro n ds h _; exact absurd h (Nat.not_lt_zero n)
  | succ f ih =>
    intro n ds hf hn
    have hdig : Nat.digits 10 n = n % 10 :: Nat.digits 10 (n / 10) :=
      Nat.digits_def' (by decide) hn
    by_cases h0 : n / 10 = 0
    · simp [Nat.toDigitsCore, h0, hdig]
    · have hpos : 0 < n / 10 := Nat.pos_of_ne_zero h0
      have hlt : n / 10 < f := by omega
      simp only [Nat.toDigitsCore, h0, if_false]
      rw [ih (n / 10) _ hlt hpos, hdig]
      simp

/-- The string `toString n` of a positive number, by its decimal digits. -/
theorem toString_eq_digits (n : Nat) (hn : 0 < n) :
    toString n = String.mk ((Nat.digits 10 n).reverse.map Nat.digitChar) := by
  show Nat.repr n = _
  unfold Nat.repr Nat.toDigits
  rw [toDigitsCore_eq_digits (n + 1) n [] (Nat.lt_succ_self n) hn]
  simp [List.asString]

/-- Distinct positive numbers have distinct decimal strings. -/
theorem toString_inj (n m : Nat) (hn : 0 < n) (hm : 0 < m) (h : toString n = toString m) :
    n = m := by
  rw [toString_eq_digits n hn, toString_eq_digits m hm] at h
  have h1 : (Nat.digits 10 n).reverse.map Nat.digitChar
      = (Nat.digits 10 m).reverse.map Nat.digitChar := by
    injection h
  have h2 := map_digitChar_inj _ _
    (fun x hx => Nat.digits_lt_base (by decide) (List.mem_reverse.mp hx))
    (fun x hx => Nat.digits_lt_base (by decide) (List.mem_reverse.mp hx)) h1
  exact Nat.digits_inj_iff.mp (List.reverse_injective h2)

/-- Distinct positions give distinct card ids. -/
theorem actionIdOf_inj (i j : Nat) (h : actionIdOf i = actionIdOf j) : i = j := by
  unfold actionIdOf at h
  have h1 : toString (i + 1) = toString (j + 1) := by
    have hd := congrArg String.data h
    simp only [String.data_append] at hd
    exact String.ext (List.append_cancel_left hd)
  have := toString_inj (i + 1) (j + 1) (Nat.succ_pos i) (Nat.succ_pos j) h1
  omega

/-! ## The state built by the plan page -/

/-- The ids given to `n` consecutive expenses from position `index` on. -/
theorem actionIds_succ (index n : Nat) :
    (List.range (n + 1)).map (fun j => actionIdOf (index + j))
      = actionIdOf index :: (List.range n).map (fun j => actionIdOf (index + 1 + j)) := by
  rw [List.range_succ_eq_map]
  simp only [List.map_cons, List.map_map, add_zero, List.cons.injEq, true_and]
  apply List.map_congr_left
  intro j _
  simp only [Function.comp, Nat.succ_eq_add_one]
  congr 1
  omega

/-- The `forEach` of the plan page appends one id per expense to the area `expenses`,
adds a card under each of these ids, and touches nothing else. -/
theorem addCards_spec (income : ℚ) :
    ∀ (es : List Expense) (index : Nat) (cards : AllocationState) (l : List String),
      cards.areas
          = (fun key => if key = "expenses" then some { id := "expenses", actionIds := l }
                        else none) →
      (Plan.addCards income es index cards).areas
          = (fun key =>
              if key = "expenses" then
                some { id := "expenses"
                       actionIds := l ++ (List.range es.length).map
                          (fun j => actionIdOf (index + j)) }
              else none) ∧
        (∀ k, ((Plan.addCards income es index cards).actions k).isSome ↔
          ((cards.actions k).isSome ∨
            k ∈ (List.range es.length).map (fun j => actionIdOf (index + j)))) ∧
        (Plan.addCards income es index cards).areaOrder = cards.areaOrder := by
  intro es
  induction es with
  | nil =>
    intro index cards l h
    simp [Plan.addCards, h]
  | cons e t ih =>
    intro index cards l h
    have hareas : (Plan.addCard income cards e index).areas
        = (fun key =>
            if key = "expenses" then
              some { id := "expenses", actionIds := (l ++ [actionIdOf index]) }
            else none) := by
      funext key
      by_cases hk : key = "expenses"
      · simp [Plan.addCard, h, hk]
      · simp [Plan.addCard, h, hk]
    obtain ⟨i1, i2, i3⟩ := ih (index + 1) (Plan.addCard income cards e index) _ hareas
    rw [Plan.addCards, List.length_cons, actionIds_succ]
    refine ⟨?_, ?_, ?_⟩
    · rw [i1]
      funext key
      by_cases hk : key = "expenses" <;> simp [hk]
    · intro k
      rw [i2 k]
      by_cases hk : k = actionIdOf index
      · simp [Plan.addCard, hk]
      · simp [Plan.addCard, hk]
    · rw [i3]
      rfl

/-- The ids `expense-1`, ..., `expense-n` have no repetition. -/
theorem actionIds_nodup (n : Nat) :
    ((List.range n).map (fun j => actionIdOf (0 + j))).Nodup := by
  apply List.Nodup.map
  · intro i j h
    have := actionIdOf_inj _ _ h
    omega
  · exact List.nodup_range n

/-- The areas and the cards of `newCardsList`. -/
theorem newCardsList_spec (income : ℚ) (es : List Expense) :
    (Plan.newCardsList income es).areas
        = (fun key =>
            if key = "expenses" then
              some { id := "expenses"
                     actionIds := (List.range es.length).map (fun j => actionIdOf (0 + j)) }
            else none) ∧
      (∀ k, ((Plan.newCardsList income es).actions k).isSome ↔
        k ∈ (List.range es.length).map (fun j => actionIdOf (0 + j))) := by
  obtain ⟨h1, h2, _⟩ := addCards_spec income es 0 emptyCardsList [] rfl
  refine ⟨by simpa [Plan.newCardsList] using h1, ?_⟩
  intro k
  have := h2 k
  simpa [Plan.newCardsList, emptyCardsList] using this

/-- The state built by the plan page satisfies the invariant. -/
theorem newCardsList_invariant (income : ℚ) (es : List Expense) :
    (Plan.newCardsList income es).Invariant := by
  obtain ⟨h1, h2⟩ := newCardsList_spec income es
  constructor
  · intro key area ha id hid
    rw [h1] at ha
    by_cases hk : key = "expenses"
    · simp only [hk, if_true, Option.some.injEq] at ha
      subst ha
      exact (h2 id).mpr hid
    · simp [hk] at ha
  · intro id hid
    have hmem := (h2 id).mp hid
    refine ⟨"expenses",
      { id := "expenses"
        actionIds := (List.range es.length).map (fun j => actionIdOf (0 + j)) },
      by rw [h1]; exact if_pos rfl, ?_, ?_⟩
    · exact List.count_eq_one_of_mem (actionIds_nodup es.length) hmem
    · intro key' area' ha' _
      rw [h1] at ha'
      by_cases hk : key' = "expenses"
      · exact hk
      · simp [hk] at ha'

/-- The state built by the plan page stores its area under its own id. -/
theorem newCardsList_keyed (income : ℚ) (es : List Expense) :
    (Plan.newCardsList income es).Keyed := by
  obtain ⟨h1, _⟩ := newCardsList_spec income es
  intro key area ha
  rw [h1] at ha
  by_cases hk : key = "expenses"
  · simp only [hk, if_true, Option.some.injEq] at ha
    subst ha
    exact hk.symm
  · simp [hk] at ha

/-- When both fetches of the plan page succeed, its `load_userdata` stores the state
built from the expenses of the plan. -/
theorem Plan.load_userdata_cardsList (sv : Services) (s : PlanState) (plan : FinancialPlan)
    (u : User) (h1 : sv.getPlan.status = "success") (h2 : sv.getPlan.financialPlan = some plan)
    (h3 : sv.getUser.status = "success") (h4 : sv.getUser.user = some u) :
    (Plan.load_userdata sv s).cardsList = Plan.newCardsList u.income plan.expenses := by
  simp [Plan.load_userdata, Plan.load_userdata.tryBlock, h1, h2, h3, h4]

/-! ## The invariant under `onDragEnd` -/

/-- Replacing the list of one area by a rearrangement of it keeps the invariant. -/
theorem invariant_of_perm (s : AllocationState) (area : Area) (l : List String)
    (hI : s.Invariant) (ha : s.areas area.id = some area) (hp : l.Perm area.actionIds) :
    AllocationState.Invariant
      { s with
        areas := fun key =>
          if key = area.id then some { area with actionIds := l } else s.areas key } := by
  obtain ⟨hI1, hI2⟩ := hI
  constructor
  · intro key a hka id hid
    by_cases hk : key = area.id
    · simp only [hk, if_true, Option.some.injEq] at hka
      subst hka
      exact hI1 _ _ ha id (hp.mem_iff.mp hid)
    · simp only [hk, if_false] at hka
      exact hI1 _ _ hka id hid
  · intro id hid
    obtain ⟨key0, area0, h0, hc, hu⟩ := hI2 id hid
    have hmem0 : id ∈ area0.actionIds := List.count_pos_iff.mp (by omega)
    by_cases hk0 : key0 = area.id
    · have hsame : area0 = area := by
        rw [hk0, ha] at h0
        exact (Option.some.inj h0).symm
      refine ⟨key0, { area with actionIds := l }, by simp [hk0], ?_, ?_⟩
      · show l.count id = 1
        rw [hp.count_eq, ← hsame]
        exact hc
      · intro key' a' hka' hid'
        by_cases hk : key' = area.id
        · rw [hk, hk0]
        · simp only [hk, if_false] at hka'
          exact hu _ _ hka' hid'
    · refine ⟨key0, area0, by simp [hk0, h0], hc, ?_⟩
      intro key' a' hka' hid'
      by_cases hk : key' = area.id
      · simp only [hk, if_true, Option.some.injEq] at hka'
        subst hka'
        have := hu _ _ ha (hp.mem_iff.mp hid')
        rw [hk, this]
      · simp only [hk, if_false] at hka'
        exact hu _ _ hka' hid'

/-- Replacing the list of one area keeps every area under its own id. -/
theorem keyed_of_update (s : AllocationState) (area : Area) (l : List String)
    (hK : s.Keyed) :
    AllocationState.Keyed
      { s with
        areas := fun key =>
          if key = area.id then some { area with actionIds := l } else s.areas key } := by
  intro key a hka
  by_cases hk : key = area.id
  · simp only [hk, if_true, Option.some.injEq] at hka
    subst hka
    exact hk.symm
  · simp only [hk, if_false] at hka
    exact hK _ _ hka

/-- C20: the invariant of the allocation state (every id in the list of an area is a
card, and every card id occurs in the list of exactly one area, exactly once) holds for
the state the plan page builds from the expenses of the plan, which is the state its
`load_userdata` stores when both fetches succeed; and it is kept by every `onDragEnd`
whose dragged id is the id at the source index of the source area.  Areas stay stored
under their own id throughout. -/
theorem allocation_invariant :
    (∀ (income : ℚ) (expenses : List Expense),
      (Plan.newCardsList income expenses).Invariant ∧
        (Plan.newCardsList income expenses).Keyed) ∧
    (∀ (sv : Services) (s : PlanState) (plan : FinancialPlan) (u : User),
      sv.getPlan.status = "success" → sv.getPlan.financialPlan = some plan →
      sv.getUser.status = "success" → sv.getUser.user = some u →
      (Plan.load_userdata sv s).cardsList = Plan.newCardsList u.income plan.expenses) ∧
    (∀ (s s' : AllocationState) (r : DropResult) (area : Area) (src : Nat),
      s.Invariant → s.Keyed →
      s.areas r.source.droppableId = some area →
      r.source.index = (src : Int) → area.actionIds[src]? = some r.draggableId →
      onDragEnd s r = Except.ok s' →
      s'.Invariant ∧ s'.Keyed) := by
  refine ⟨fun income es => ⟨newCardsList_invariant income es, newCardsList_keyed income es⟩,
    fun sv s plan u h1 h2 h3 h4 => Plan.load_userdata_cardsList sv s plan u h1 h2 h3 h4, ?_⟩
  intro s s' r area src hI hK ha hsrc hid h
  cases hd : r.destination with
  | none =>
    simp only [onDragEnd, hd] at h
    cases h
    exact ⟨hI, hK⟩
  | some d =>
    by_cases hpos : d.droppableId = r.source.droppableId ∧ d.index = r.source.index
    · simp only [onDragEnd, hd, hpos, and_self, if_true] at h
      cases h
      exact ⟨hI, hK⟩
    · rw [onDragEnd_update s r d area hd hpos ha] at h
      cases h
      have hkey : s.areas area.id = some area := by rw [hK _ _ ha]; exact ha
      have hp := splice_move_perm area.actionIds src d.index r.draggableId hid
      rw [hsrc]
      exact ⟨invariant_of_perm s area _ hI hkey hp, keyed_of_update s area _ hK⟩

/-- Instance of C20: the state built from the two expenses of the sample plan, and the
drag of `expense-2` from index 1 to index 0 of the area `expenses`. -/
theorem allocation_invariant_witness :
    ((Plan.newCardsList 1000 samplePlan.expenses).Invariant ∧
      (Plan.newCardsList 1000 samplePlan.expenses).Keyed) ∧
    (Plan.load_userdata (sampleServices projectionNetworkError) Plan.initialState).cardsList
      = Plan.newCardsList sampleUser.income samplePlan.expenses ∧
    ∃ s',
      onDragEnd (Plan.newCardsList 1000 samplePlan.expenses)
          { destination := some { droppableId := "expenses", index := 0 }
            source := { droppableId := "expenses", index := ((1 : Nat) : Int) }
            draggableId := "expense-2" }
        = Except.ok s' ∧
      s'.Invariant ∧ s'.Keyed :=
  ⟨allocation_invariant.1 1000 samplePlan.expenses,
    allocation_invariant.2.1 (sampleServices projectionNetworkError) Plan.initialState
      samplePlan sampleUser rfl rfl rfl rfl,
    _, onDragEnd_update (Plan.newCardsList 1000 samplePlan.expenses)
      { destination := some { droppableId := "expenses", index := 0 }
        source := { droppableId := "expenses", index := ((1 : Nat) : Int) }
        draggableId := "expense-2" }
      { droppableId := "expenses", index := 0 }
      { id := "expenses", actionIds := ["expense-1", "expense-2"] } rfl (by decide) (by decide),
    allocation_invariant.2.2 (Plan.newCardsList 1000 samplePlan.expenses) _
      { destination := some { droppableId := "expenses", index := 0 }
        source := { droppableId := "expenses", index := ((1 : Nat) : Int) }
        draggableId := "expense-2" }
      { id := "expenses", actionIds := ["expense-1", "expense-2"] } 1
      (allocation_invariant.1 1000 samplePlan.expenses).1
      (allocation_invariant.1 1000 samplePlan.expenses).2
      (by decide) rfl (by decide)
      (onDragEnd_update (Plan.newCardsList 1000 samplePlan.expenses)
        { destination := some { droppableId := "expenses", index := 0 }
          source := { droppableId := "expenses", index := ((1 : Nat) : Int) }
          draggableId := "expense-2" }
        { droppableId := "expenses", index := 0 }
        { id := "expenses", actionIds := ["expense-1", "expense-2"] } rfl (by decide)
        (by decide))⟩

/-! ## The expected series starts at the first saving -/

/-- The first entry of the sorted history has the smallest month. -/
theorem sortHistory_head (h : List HistoryEntry) (e : HistoryEntry) (t : List HistoryEntry)
    (hs : sortHistory h = e :: t) :
    e ∈ h ∧ ∀ e' ∈ h, e.month ≤ e'.month := by
  have hperm := sortHistory_perm h
  have hsorted := sortHistory_sorted h
  rw [hs] at hperm hsorted
  refine ⟨hperm.mem_iff.mp (List.mem_cons_self e t), ?_⟩
  intro e' he'
  have hmem : e' ∈ e :: t := hperm.mem_iff.mpr he'
  rw [List.map_cons, List.pairwise_cons] at hsorted
  rcases List.mem_cons.mp hmem with h1 | h1
  · rw [h1]
  · exact hsorted.1 _ (List.mem_map_of_mem _ h1)

/-- The sorted history of a non-empty history is non-empty. -/
theorem sortHistory_ne_nil (h : List HistoryEntry) (hne : h ≠ []) :
    ∃ e t, sortHistory h = e :: t := by
  cases hs : sortHistory h with
  | nil =>
    have := (sortHistory_perm h).length_eq
    rw [hs] at this
    exact absurd (List.length_eq_zero.mp this.symm) hne
  | cons e t => exact ⟨e, t, rfl⟩

/-- C21 fails as stated when the increase overflows: with the income `1e308` and 20 percent
for savings, `income * 20` is `Infinity`, so the increase is `Infinity` and the value at
month 0 is `Infinity * 0 + 100`, which is `NaN`, not the saving 100 of the entry with the
smallest month. -/
theorem load_userdata_expected_start_counterexample :
    FetchesSucceed (servicesWithHugeIncome (projectionOk projectionWithinPlan)) samplePlan
        sampleHistory userWithHugeIncome ∧
      ProjectionSucceeds (servicesWithHugeIncome (projectionOk projectionWithinPlan)) samplePlan
        sampleHistory projectionWithinPlan ∧
      (load_userdata (servicesWithHugeIncome (projectionOk projectionWithinPlan))
          initialState).chartData.series "Expected Progress"
        = some [Cell.num JSNum.nan, Cell.num JSNum.posInf, Cell.num JSNum.posInf,
            Cell.num JSNum.posInf] ∧
      (∀ e ∈ sampleHistory, (∀ e' ∈ sampleHistory, e.month ≤ e'.month) →
        e.saving = 100 ∧
        ((load_userdata (servicesWithHugeIncome (projectionOk projectionWithinPlan))
            initialState).chartData.series "Expected Progress").bind (fun data => data[0]?)
          ≠ some (Cell.num (JSNum.fin e.saving))) := by
  refine ⟨⟨rfl, rfl, Or.inl rfl, rfl, rfl, rfl, rfl⟩, ⟨rfl, rfl⟩, ?_, ?_⟩
  · decide!
  · decide!

/-- C21, as the code has it: when the fetches and the projection succeed, the history is not
empty and the duration is `d ≥ 0`, the Expected Progress series has the value
`k * i + v0` for the months `i = 0..d`, with the JavaScript `*` and `+`, where `v0` is the
saving of a history entry with the smallest month and `k` is the increase:
`income * p / 100` for the percentage `p` of the plan's `savings` expense, and 0 when the
plan has no such expense.  Whenever the increase is a finite number, the value at month 0
is `v0`. -/
theorem load_userdata_expected_start (sv : Services) (s : PageState) (plan : FinancialPlan)
    (history : List HistoryEntry) (u : User) (proj : RegressionData) (d : Nat)
    (hf : FetchesSucceed sv plan history u) (hp : ProjectionSucceeds sv plan history proj)
    (hne : history ≠ []) (hd : plan.duration = (d : Int)) :
    ∃ e ∈ history, (∀ e' ∈ history, e.month ≤ e'.month) ∧
      (load_userdata sv s).chartData.series "Expected Progress"
        = some ((List.range (d + 1)).map (fun (i : Nat) =>
            Cell.num (expectedIncrease plan u * JSNum.ofInt (i : Int) + JSNum.fin e.saving))) ∧
      (∀ x, plan.expenses.find? (fun expense => expense.type == "savings") = some x →
        expectedIncrease plan u
          = JSNum.fin u.income * JSNum.fin x.expense / JSNum.fin 100) ∧
      (plan.expenses.find? (fun expense => expense.type == "savings") = none →
        expectedIncrease plan u = JSNum.fin 0) ∧
      (∀ q : ℚ, expectedIncrease plan u = JSNum.fin q →
        ((load_userdata sv s).chartData.series "Expected Progress").bind (fun data => data[0]?)
          = some (Cell.num (JSNum.fin e.saving))) := by
  obtain ⟨e, t, hs⟩ := sortHistory_ne_nil history hne
  obtain ⟨hmem, hmin⟩ := sortHistory_head history e t hs
  have hlen : 0 < (sortHistory history).length := by rw [hs]; simp
  have h0 := accumulate_progress_getElem (sortHistory history) 0 hlen
  have hv : (jsIndex (accumulate (sortHistory history)).progress 0).toNumber
      = JSNum.fin e.saving := by
    have h0' : (accumulate (sortHistory history)).progress[0]? = some (JSNum.fin e.saving) := by
      rw [h0, hs]
      simp only [List.take_succ_cons, List.take_zero, List.map_cons, List.map_nil,
        runningTotal, JSNum.sumFrom, List.foldl_cons, List.foldl_nil, JSNum.fin_zero_add]
    simp only [jsIndex, h0', Cell.toNumber]
  have hseries : (load_userdata sv s).chartData.series "Expected Progress"
      = some ((List.range (d + 1)).map (fun (i : Nat) =>
          Cell.num (expectedIncrease plan u * JSNum.ofInt (i : Int) + JSNum.fin e.saving))) := by
    rw [load_userdata_chart sv s plan history u proj hf hp]
    have hd1 : ((d : Int) + 1).toNat = d + 1 := by omega
    simp only [buildChart, ChartData.series, expectedPointsFor, getExpectedPoints_progress,
      hv, hd, hd1]
    simp [List.find?, Function.comp_def]
  refine ⟨e, hmem, hmin, hseries, ?_, ?_, ?_⟩
  · intro x hx
    simp only [expectedIncrease, hx]
  · intro hx
    simp only [expectedIncrease, hx]
  · intro q hq
    rw [hseries, hq]
    simp only [Option.some_bind, List.range_succ_eq_map, List.map_cons, List.getElem?_cons_zero,
      Nat.cast_zero, JSNum.fin_mul_zero, JSNum.fin_zero_add]

/-- Instance of the amended C21 on the sample data: the entry of month 1 saved 100, and 20
percent of the income 1000 are 200 per month. -/
theorem load_userdata_expected_start_witness :
    ∃ e ∈ sampleHistory, (∀ e' ∈ sampleHistory, e.month ≤ e'.month) ∧
      (load_userdata (sampleServices (projectionOk projectionWithinPlan))
          initialState).chartData.series "Expected Progress"
        = some ((List.range (3 + 1)).map (fun (i : Nat) =>
            Cell.num (expectedIncrease samplePlan sampleUser * JSNum.ofInt (i : Int)
              + JSNum.fin e.saving))) ∧
      ((load_userdata (sampleServices (projectionOk projectionWithinPlan))
          initialState).chartData.series "Expected Progress").bind (fun data => data[0]?)
        = some (Cell.num (JSNum.fin e.saving)) := by
  obtain ⟨e, he, hmin, hseries, _, _, h0⟩ :=
    load_userdata_expected_start _ initialState samplePlan sampleHistory sampleUser
      projectionWithinPlan 3 (sampleServices_fetches _) (sampleServices_projection _)
      (by decide) rfl
  exact ⟨e, he, hmin, hseries, h0 200 (by decide!)⟩

/-! ## `DateService.convertToJSDate` -/

/-- C22 (the code falls short of it): the documentation of `convertToJSDate` names a Unix
timestamp (a number) as an accepted argument, but the function returns a date for no
number: the number 0 gives `null`, and every other number, such as the Unix timestamp
1700000000, raises `Invalid timestamp format`.  A `Timestamp` instance gives its date; an
object carrying `seconds` and `nanoseconds` gives a date when the `Timestamp` constructor
accepts the two values and raises its error otherwise, as for the nanoseconds -1. -/
theorem convertToJSDate_number (n : ℚ) :
    convertToJSDate (TimestampArg.number n)
        = (if n = 0 then Except.ok none else Except.error "Invalid timestamp format") ∧
      convertToJSDate (TimestampArg.number 1700000000)
        = Except.error "Invalid timestamp format" ∧
      (∀ s ns : ℚ,
        convertToJSDate (TimestampArg.timestamp s ns)
            = Except.ok (some { seconds := s, nanoseconds := ns })) ∧
      (∀ s ns : ℚ,
        if 0 ≤ ns ∧ ns < 1000000000 ∧ -62135596800 ≤ s ∧ s < 253402300800 then
          convertToJSDate (TimestampArg.object (some s) (some ns))
            = Except.ok (some { seconds := s, nanoseconds := ns })
        else ∃ msg, convertToJSDate (TimestampArg.object (some s) (some ns))
            = Except.error msg) ∧
      convertToJSDate (TimestampArg.object (some 1700000000) (some 0))
        = Except.ok (some { seconds := 1700000000, nanoseconds := 0 }) ∧
      convertToJSDate (TimestampArg.object (some 1700000000) (some (-1)))
        = Except.error "Timestamp nanoseconds out of range" := by
  refine ⟨rfl, ?_, fun s ns => rfl, ?_, ?_, ?_⟩
  · simp [convertToJSDate]
  · intro s ns
    split
    · rename_i h
      obtain ⟨h1, h2, h3, h4⟩ := h
      simp [convertToJSDate, Timestamp.new, not_lt.mpr h1, not_le.mpr h2, not_lt.mpr h3,
        not_le.mpr h4]
    · rename_i h
      simp only [convertToJSDate, Timestamp.new]
      by_cases h1 : ns < 0
      · exact ⟨"Timestamp nanoseconds out of range", by simp [h1]⟩
      · by_cases h2 : ns ≥ 1000000000
        · exact ⟨"Timestamp nanoseconds out of range", by simp [h1, h2]⟩
        · by_cases h3 : s < -62135596800
          · exact ⟨"Timestamp seconds out of range", by simp [h1, h2, h3]⟩
          · by_cases h4 : s ≥ 253402300800
            · exact ⟨"Timestamp seconds out of range", by simp [h1, h2, h3, h4]⟩
            · exact absurd ⟨not_lt.mp h1, not_le.mp h2, not_lt.mp h3, not_le.mp h4⟩ h
  · norm_num [convertToJSDate, Timestamp.new]
  · norm_num [convertToJSDate, Timestamp.new]

/-! ## The accumulated savings -/

/-- The running total after the `forEach` is the starting total with all savings added
one after the other. -/
theorem accumulate_a_saving_foldl (h : List HistoryEntry) :
    ∀ (ms : List Int) (ps : List JSNum) (a : JSNum),
      (h.foldl
        (fun (acc : Accumulated) (e : HistoryEntry) =>
          ({ months := acc.months ++ [e.month]
             progress := acc.progress ++ [acc.a_saving + JSNum.fin e.saving]
             a_saving := acc.a_saving + JSNum.fin e.saving } : Accumulated))
        { months := ms, progress := ps, a_saving := a }).a_saving
        = JSNum.sumFrom a (h.map HistoryEntry.saving) := by
  induction h with
  | nil => intro ms ps a; simp [JSNum.sumFrom]
  | cons e t ih => intro ms ps a; simp [List.foldl_cons, ih, JSNum.sumFrom]

/-- The variable `a_saving` ends as the running total of the savings, in the order of the
entries. -/
theorem accumulate_a_saving (h : List HistoryEntry) :
    (accumulate h).a_saving = runningTotal (h.map HistoryEntry.saving) := by
  have e := accumulate_a_saving_foldl h [] [] (JSNum.fin 0)
  rw [accumulate, e]
  rfl

/-- When the date of the plan converts to a date, no activity callback throws. -/
theorem activitiesOf_isSome (monthYear : JSDate → Int → String) (plan : FinancialPlan)
    (date : JSDate) (hdate : convertToJSDate plan.date = Except.ok (some date)) :
    ∀ (h : List HistoryEntry) (index : Nat), ∃ as, activitiesOf monthYear plan h index = some as := by
  intro h
  induction h with
  | nil => intro index; exact ⟨[], rfl⟩
  | cons e t ih =>
    intro index
    obtain ⟨as, has⟩ := ih (index + 1)
    refine ⟨{ id := index + 1, amount := e.saving, goal := plan.goal_name,
              date := monthYear date e.month } :: as, ?_⟩
    simp [activitiesOf, activityOf, hdate, has]

/-- When the fetches and the projection succeed and the date of the plan converts to a
date, `load_userdata` hands the running total, the goal and its name to
`setGoalAdvances`. -/
theorem load_userdata_goalAdvances (sv : Services) (s : PageState) (plan : FinancialPlan)
    (history : List HistoryEntry) (u : User) (proj : RegressionData) (date : JSDate)
    (hf : FetchesSucceed sv plan history u) (hp : ProjectionSucceeds sv plan history proj)
    (hdate : convertToJSDate plan.date = Except.ok (some date)) :
    (load_userdata sv s).goalAdvances
      = some { saved := (accumulate (sortHistory history)).a_saving
               goal := plan.goal, goal_name := plan.goal_name } := by
  obtain ⟨h1, h2, h3, h4, h5, h6, h7⟩ := hf
  obtain ⟨hp1, hp2⟩ := hp
  have h3' : ¬ (sv.getHistory.status ≠ "success" ∧ sv.getHistory.status ≠ "not_found") := by
    rcases h3 with h | h <;> simp [h]
  obtain ⟨as, has⟩ := activitiesOf_isSome sv.monthYear plan date hdate (sortHistory history) 0
  simp only [regressionRequest] at hp1 hp2
  simp only [load_userdata, load_userdata.tryBlock, h1, h2, h3', h4, h5, h6, h7, hp1, hp2,
    ne_eq, not_true_eq_false, if_false, has]
  cases hfind : plan.expenses.find? (fun expense => expense.type == "savings") <;> rfl

/-- C24: for every history, in any input order, the arrays `months` and `progress` that
`load_userdata` computes (and sends to the projection provider) list the months of the
history in ascending order, and entry `i` of `progress` is the sum of the savings of the
`i + 1` entries with the smallest months; the amount `saved` handed to the goal summary is
the sum of all savings.  Each sum is the running total `0 + s1 + s2 + ...` taken with the
JavaScript `+` in the order of the months, as the code adds them. -/
theorem load_userdata_accumulated (sv : Services) (s : PageState) (plan : FinancialPlan)
    (history : List HistoryEntry) (u : User) (proj : RegressionData) (date : JSDate)
    (hf : FetchesSucceed sv plan history u) (hp : ProjectionSucceeds sv plan history proj)
    (hdate : convertToJSDate plan.date = Except.ok (some date)) :
    (regressionRequest plan history).months = (sortHistory history).map HistoryEntry.month ∧
      (sortHistory history).Perm history ∧
      List.Pairwise (fun a b : Int => a ≤ b) (regressionRequest plan history).months ∧
      (∀ i, i < history.length →
        (regressionRequest plan history).progress[i]?
            = some (runningTotal
                (((sortHistory history).take (i + 1)).map HistoryEntry.saving)) ∧
          ∀ a ∈ (sortHistory history).take (i + 1), ∀ b ∈ (sortHistory history).drop (i + 1),
            a.month ≤ b.month) ∧
      (load_userdata sv s).goalAdvances.map GoalAdvances.saved
        = some (runningTotal ((sortHistory history).map HistoryEntry.saving)) := by
  have hm : (regressionRequest plan history).months
      = (sortHistory history).map HistoryEntry.month := accumulate_months _
  refine ⟨hm, sortHistory_perm history, ?_, ?_, ?_⟩
  · rw [hm]
    exact sortHistory_sorted history
  · intro i hi
    have hi' : i < (sortHistory history).length := by
      rw [(sortHistory_perm history).length_eq]
      exact hi
    refine ⟨accumulate_progress_getElem _ i hi', ?_⟩
    intro a ha b hb
    have hsorted := sortHistory_sorted history
    rw [← List.take_append_drop (i + 1) (sortHistory history), List.map_append,
      List.pairwise_append] at hsorted
    exact hsorted.2.2 _ (List.mem_map_of_mem _ ha) _ (List.mem_map_of_mem _ hb)
  · rw [load_userdata_goalAdvances sv s plan history u proj date hf hp hdate,
      accumulate_a_saving]
    rfl

/-- Instance of C24 on the sample data, whose entries arrive as month 2, month 1. -/
theorem load_userdata_accumulated_witness :
    (regressionRequest samplePlan sampleHistory).months
        = (sortHistory sampleHistory).map HistoryEntry.month ∧
      (sortHistory sampleHistory).Perm sampleHistory ∧
      List.Pairwise (fun a b : Int => a ≤ b) (regressionRequest samplePlan sampleHistory).months ∧
      (∀ i, i < sampleHistory.length →
        (regressionRequest samplePlan sampleHistory).progress[i]?
            = some (runningTotal
                (((sortHistory sampleHistory).take (i + 1)).map HistoryEntry.saving)) ∧
          ∀ a ∈ (sortHistory sampleHistory).take (i + 1),
            ∀ b ∈ (sortHistory sampleHistory).drop (i + 1), a.month ≤ b.month) ∧
      (load_userdata (sampleServices (projectionOk projectionWithinPlan))
          initialState).goalAdvances.map GoalAdvances.saved
        = some (runningTotal ((sortHistory sampleHistory).map HistoryEntry.saving)) :=
  load_userdata_accumulated _ initialState samplePlan sampleHistory sampleUser
    projectionWithinPlan { seconds := 1700000000, nanoseconds := 0 }
    (sampleServices_fetches _) (sampleServices_projection _) rfl

/-! ## `calculateAverageExpenses`: the divisor counts records -/

/-- Records of a type outside the category list leave the sums and counts as they are. -/
theorem addRecords_filter :
    ∀ (rs : List Expense) (acc : CategoryTotals),
      (rs.filter (fun r => decide (r.type ∈ categories))).foldl
          calculateAverageExpenses.addRecord acc
        = rs.foldl calculateAverageExpenses.addRecord acc := by
  intro rs
  induction rs with
  | nil => intro acc; rfl
  | cons r t ih =>
    intro acc
    by_cases hr : r.type ∈ categories
    · simp only [List.filter_cons, hr, decide_True, if_true, List.foldl_cons, ih]
    · have hskip : calculateAverageExpenses.addRecord acc r = acc := by
        simp [calculateAverageExpenses.addRecord, hr]
      simp only [List.filter_cons, hr, decide_False, List.foldl_cons, hskip]
      simpa using ih acc

/-- Dropping the records of unlisted types from every entry leaves the totals as they
are. -/
theorem addEntries_dropUnlisted :
    ∀ (h : List HistoryEntry) (acc : CategoryTotals),
      (h.map dropUnlisted).foldl
          (fun acc entry => entry.expenses.foldl calculateAverageExpenses.addRecord acc) acc
        = h.foldl
          (fun acc entry => entry.expenses.foldl calculateAverageExpenses.addRecord acc) acc := by
  intro h
  induction h with
  | nil => intro acc; rfl
  | cons e t ih =>
    intro acc
    simp only [List.map_cons, List.foldl_cons, dropUnlisted, addRecords_filter, ih]

/-- C25: for every history, income and listed category `c` with at least one record,
`calculateAverageExpenses` reports for `c` the sum of the amounts of its records, divided
by the number of its records, divided by the income and multiplied by 100, where the sum,
the two quotients and the product are taken with the JavaScript operations in this order;
so an entry holding several records of `c` counts once per record.  Records of a type
outside the category list change no reported value. -/
theorem calculateAverageExpenses_per_record (history : List HistoryEntry) (income : ℚ)
    (c : String) (hc : c ∈ categories) (hn : 0 < categoryRecords history c) :
    valueOf (calculateAverageExpenses history income) c
        = some (categoryAmount history c
            / JSNum.fin (categoryRecords history c : ℚ) / JSNum.fin income * JSNum.fin 100) ∧
      calculateAverageExpenses (history.map dropUnlisted) income
        = calculateAverageExpenses history income := by
  refine ⟨calculateAverageExpenses_apply history income c hc hn, ?_⟩
  unfold calculateAverageExpenses calculateAverageExpenses.totals
  rw [addEntries_dropUnlisted]

/-- Instance of C25: one entry with the records food 100 and food 300 and the income 1000
reports 400 / 2 / 1000 * 100 for food. -/
theorem calculateAverageExpenses_per_record_witness :
    valueOf (calculateAverageExpenses historyWithRepeatedCategory 1000) "food"
        = some (categoryAmount historyWithRepeatedCategory "food"
            / JSNum.fin (categoryRecords historyWithRepeatedCategory "food" : ℚ)
            / JSNum.fin 1000 * JSNum.fin 100) ∧
      calculateAverageExpenses (historyWithRepeatedCategory.map dropUnlisted) 1000
        = calculateAverageExpenses historyWithRepeatedCategory 1000 :=
  calculateAverageExpenses_per_record historyWithRepeatedCategory 1000 "food" (by decide)
    (by decide)

/-! ## The total of a history card -/

/-- C23 (the code falls short of it): `calculateTotal` adds `parseInt(val) || 0`, so every
amount loses its fraction.  For the card with food 10.5, housing 20.5 and saving 5 it
returns 35, while the exact sum of the amounts is 36. -/
theorem calculateTotal_truncates :
    ExpenseCard.calculateTotal cardWithFractions = 35 ∧
      exactTotal cardWithFractions = 36 ∧
      ((ExpenseCard.calculateTotal cardWithFractions : Int) : ℚ) ≠ exactTotal cardWithFractions ∧
      parseIntOrZero (FieldValue.num (21 / 2)) = 10 ∧
      parseIntOrZero (FieldValue.num (41 / 2)) = 20 := by
  decide!

/-! ## The field names of the history form and the category list -/

/-- C26 (the code falls short of it): the history form has the field `non-essentials`,
which `transformExpense` turns into a record of type `non-essentials`, while the category
list of `calculateAverageExpenses` has `non-essential`.  A submission with 60 in that
field is reported with 0 for `non-essential`; its food amount 100 is reported. -/
theorem form_field_not_a_category :
    "non-essentials" ∈
        (ExpenseForm.initialValues.map Prod.fst).filter (fun k => decide (k ≠ "saving")) ∧
      "non-essentials" ∉ categories ∧
      (History.transformExpense sampleSubmission).expenses.map StoredExpense.type
        = ["food", "housing", "health", "transportation", "university", "non-essentials"] ∧
      objGet sampleSubmission.values "non-essentials" = FieldValue.num 60 ∧
      valueOf
          (calculateAverageExpenses [(History.transformExpense sampleSubmission).toHistoryEntry]
            1000) "non-essential"
        = some (JSNum.fin 0) ∧
      valueOf
          (calculateAverageExpenses [(History.transformExpense sampleSubmission).toHistoryEntry]
            1000) "food"
        = some (JSNum.fin 10) := by
  decide!

/-! ## The cards of the history page stay sorted -/

/-- The sorted cards are ordered by month. -/
theorem sortCards_sorted (cards : List HistoryCard) :
    List.Pairwise (fun a b : HistoryCard => a.month ≤ b.month) (sortCards cards) :=
  @List.sorted_insertionSort HistoryCard (fun a b => a.month ≤ b.month) _
    ⟨fun a b => le_total a.month b.month⟩ ⟨fun _ _ _ hab hbc => le_trans hab hbc⟩ cards

/-- The sorted cards are the given cards. -/
theorem sortCards_perm (cards : List HistoryCard) : (sortCards cards).Perm cards :=
  List.perm_insertionSort _ cards

/-- Removing one card from a list ordered by month leaves it ordered. -/
theorem eraseIdx_sorted (cards : List HistoryCard) (index : Nat)
    (h : List.Pairwise (fun a b : HistoryCard => a.month ≤ b.month) cards) :
    List.Pairwise (fun a b : HistoryCard => a.month ≤ b.month) (cards.eraseIdx index) :=
  h.sublist (List.eraseIdx_sublist cards index)

/-- Whether the `try` block of the history page completes or throws, the cards of the
state it reaches are the cards before or a sorted list. -/
theorem History.tryBlock_expenses (monthYear : JSDate → Int → String) (uid : String)
    (plan : PlanResponse) (history : StoredHistoryResponse) (s t : HistoryState) :
    (History.load_userdata.tryBlock monthYear uid plan history s = Except.ok t ∨
      History.load_userdata.tryBlock monthYear uid plan history s = Except.error t) →
      (t.expenses = s.expenses ∨ ∃ cards, t.expenses = sortCards cards) := by
  unfold History.load_userdata.tryBlock
  repeat' split
  all_goals
    rintro (h | h) <;> cases h
    first
      | exact Or.inl rfl
      | exact Or.inr ⟨_, rfl⟩

/-- The cards after `load_userdata` are the cards before or a sorted list. -/
theorem History.load_userdata_expenses (monthYear : JSDate → Int → String) (uid : String)
    (plan : PlanResponse) (history : StoredHistoryResponse) (s : HistoryState) :
    (History.load_userdata monthYear uid plan history s).expenses = s.expenses ∨
      ∃ cards, (History.load_userdata monthYear uid plan history s).expenses = sortCards cards := by
  unfold History.load_userdata
  cases h : History.load_userdata.tryBlock monthYear uid plan history s with
  | ok t => exact History.tryBlock_expenses monthYear uid plan history s t (Or.inl h)
  | error t => exact History.tryBlock_expenses monthYear uid plan history s t (Or.inr h)

/-- One operation keeps the cards ordered by month. -/
theorem History.step_sorted (s : HistoryState) (op : HistoryOp)
    (h : List.Pairwise (fun a b : HistoryCard => a.month ≤ b.month) s.expenses) :
    List.Pairwise (fun a b : HistoryCard => a.month ≤ b.month) (History.step s op).expenses := by
  cases op with
  | load monthYear uid plan history =>
    rcases History.load_userdata_expenses monthYear uid plan history s with e | ⟨cards, e⟩
    · simp only [History.step, e]; exact h
    · simp only [History.step, e]; exact sortCards_sorted cards
  | add newExpense historyRequest =>
    simp only [History.step, History.handleAddExpense]
    split
    · exact h
    · exact sortCards_sorted _
  | delete index historyRequest =>
    simp only [History.step, History.handleDeleteExpense]
    repeat' split
    all_goals first
      | exact h
      | exact eraseIdx_sorted _ _ h

/-- Every sequence of operations keeps the cards ordered by month. -/
theorem History.run_sorted (ops : List HistoryOp) :
    ∀ s : HistoryState,
      List.Pairwise (fun a b : HistoryCard => a.month ≤ b.month) s.expenses →
      List.Pairwise (fun a b : HistoryCard => a.month ≤ b.month)
        (History.run s ops).expenses := by
  induction ops with
  | nil => intro s h; exact h
  | cons op rest ih =>
    intro s h
    exact ih (History.step s op) (History.step_sorted s op h)

/-- C27: after every sequence of operations on the history page (initial load, add,
delete, each with any answer of the services) the list of cards is sorted by month in
ascending order.  A successful load stores the sorted cards of the history, a successful
add stores the sorted list of the old cards and the new one, and a successful delete
removes exactly the card at the given index and keeps the others in their order. -/
theorem History.cards_sorted (ops : List HistoryOp) :
    List.Pairwise (fun a b : HistoryCard => a.month ≤ b.month)
        (History.run History.initialState ops).expenses ∧
      (∀ (s : HistoryState) (newExpense : FormSubmission) (r : HistoryRequestResponse),
        r.status = "success" →
        (History.handleAddExpense newExpense r s).expenses.Perm
          (s.expenses ++ [History.updatedExpense newExpense r.history_id])) ∧
      (∀ (s : HistoryState) (index : Nat) (r : HistoryRequestResponse) (card : HistoryCard)
        (id : String),
        s.expenses[index]? = some card → card.history_id = some id → id ≠ "" →
        r.status = "success" →
        (History.handleDeleteExpense index r s).expenses = s.expenses.eraseIdx index) := by
  refine ⟨History.run_sorted ops History.initialState List.Pairwise.nil, ?_, ?_⟩
  · intro s newExpense r hr
    simp only [History.handleAddExpense, hr, ne_eq, not_true_eq_false, if_false]
    exact sortCards_perm _
  · intro s index r card id hcard hid hne hr
    simp [History.handleDeleteExpense, hcard, hid, hne, hr]

/-- Instance of C27: a card of month 2 and then a card of month 1 are added, and the card
at index 0 is deleted. -/
theorem History.cards_sorted_witness :
    List.Pairwise (fun a b : HistoryCard => a.month ≤ b.month)
        (History.run History.initialState
          [ HistoryOp.add { sampleSubmission with month := 2 }
              { status := "success", message := "", history_id := some "h2" },
            HistoryOp.add sampleSubmission
              { status := "success", message := "", history_id := some "h1" },
            HistoryOp.delete 0
              { status := "success", message := "", history_id := none } ]).expenses ∧
      (History.handleDeleteExpense 0 { status := "success", message := "", history_id := none }
          { History.initialState with expenses := [cardWithFractions] }).expenses
        = [cardWithFractions].eraseIdx 0 :=
  ⟨(History.cards_sorted _).1,
    (History.cards_sorted []).2.2 { History.initialState with expenses := [cardWithFractions] }
      0 { status := "success", message := "", history_id := none } cardWithFractions "h1"
      rfl rfl (by decide) rfl⟩

/-! ## Submitting the history form -/

/-- C28 (the code falls short of it): a field that was typed and then cleared holds
`null`, which passes the test `v !== ""`.  After month 1 is chosen, all seven fields are
filled in and `food` is cleared again, `handleSubmit` calls `onSubmit` with `food: null`
and shows no toast; a form whose fields were never touched gets the toast. -/
theorem handleSubmit_cleared_field :
    objGet (ExpenseForm.edits sampleForm editsWithClearedField).values "food"
        = FieldValue.null ∧
      ExpenseForm.handleSubmit (ExpenseForm.edits sampleForm editsWithClearedField) "u1"
        = SubmitOutcome.onSubmit
            { month := 1, month_name := "January 2025", id_user := "u1"
              values :=
                [ ("food", FieldValue.null), ("housing", FieldValue.num 200),
                  ("health", FieldValue.num 30), ("transportation", FieldValue.num 40),
                  ("university", FieldValue.num 50), ("non-essentials", FieldValue.num 60),
                  ("saving", FieldValue.num 70) ] } ∧
      ExpenseForm.handleSubmit (ExpenseForm.edits sampleForm [FormEdit.setMonth 1]) "u1"
        = SubmitOutcome.toastError "Please fill all fields." := by
  decide

/-! ## The wizard index -/

/-- One click keeps the question index within the questions. -/
theorem NewPlanQuestions.step_bounds (i : Int) (st : WizardStep)
    (h : 0 ≤ i ∧ i ≤ (NewPlanQuestions.questions.length : Int) - 1) :
    0 ≤ NewPlanQuestions.step i st ∧
      NewPlanQuestions.step i st ≤ (NewPlanQuestions.questions.length : Int) - 1 := by
  have hlen : (NewPlanQuestions.questions.length : Int) = 11 := rfl
  rw [hlen] at h ⊢
  cases st with
  | next =>
    simp only [NewPlanQuestions.step, NewPlanQuestions.handleNext, hlen]
    omega
  | previous =>
    simp only [NewPlanQuestions.step, NewPlanQuestions.handlePrevious]
    omega

/-- Every sequence of clicks keeps the question index within the questions. -/
theorem NewPlanQuestions.run_bounds (steps : List WizardStep) :
    ∀ i : Int, (0 ≤ i ∧ i ≤ (NewPlanQuestions.questions.length : Int) - 1) →
      0 ≤ NewPlanQuestions.run i steps ∧
        NewPlanQuestions.run i steps ≤ (NewPlanQuestions.questions.length : Int) - 1 := by
  induction steps with
  | nil => intro i h; exact h
  | cons st rest ih =>
    intro i h
    exact ih (NewPlanQuestions.step i st) (NewPlanQuestions.step_bounds i st h)

/-- C30: starting from question index 0, after every sequence of `handleNext` and
`handlePrevious` steps the index lies in `0 .. questions.length - 1` and names a question;
`handleNext` at the last question and `handlePrevious` at the first leave it unchanged. -/
theorem NewPlanQuestions.index_in_range (steps : List WizardStep) :
    0 ≤ NewPlanQuestions.run 0 steps ∧
      NewPlanQuestions.run 0 steps ≤ (NewPlanQuestions.questions.length : Int) - 1 ∧
      (∃ q, NewPlanQuestions.questions[(NewPlanQuestions.run 0 steps).toNat]? = some q) ∧
      NewPlanQuestions.handleNext ((NewPlanQuestions.questions.length : Int) - 1)
        = (NewPlanQuestions.questions.length : Int) - 1 ∧
      NewPlanQuestions.handlePrevious 0 = 0 := by
  obtain ⟨h0, h1⟩ := NewPlanQuestions.run_bounds steps 0 (by decide)
  refine ⟨h0, h1, ?_, by decide, by decide⟩
  have hlen : (NewPlanQuestions.questions.length : Int) = 11 := rfl
  have hlt : (NewPlanQuestions.run 0 steps).toNat < NewPlanQuestions.questions.length := by
    have : NewPlanQuestions.questions.length = 11 := rfl
    omega
  exact ⟨_, List.getElem?_eq_getElem hlt⟩

/-! ## From the form to the stored entry and back to a card -/

/-- Setting a property that the object does not have appends it. -/
theorem objSet_not_mem (k : String) (v : FieldValue) :
    ∀ o : List (String × FieldValue), k ∉ o.map Prod.fst → objSet o k v = o ++ [(k, v)] := by
  intro o
  induction o with
  | nil => intro _; rfl
  | cons kw rest ih =>
    intro h
    obtain ⟨k', w⟩ := kw
    simp only [List.map_cons, List.mem_cons, not_or] at h
    have hne : ¬ k' = k := fun e => h.1 e.symm
    simp [objSet, hne, ih h.2]

/-- Setting the properties of a duplicate-free list of entries one after the other, none
of them present before, appends the list. -/
theorem foldl_objSet_append :
    ∀ (l acc : List (String × FieldValue)), (acc.map Prod.fst ++ l.map Prod.fst).Nodup →
      l.foldl (fun acc kv => objSet acc kv.1 kv.2) acc = acc ++ l := by
  intro l
  induction l with
  | nil => intro acc _; simp
  | cons kv t ih =>
    intro acc h
    have hk : kv.1 ∉ acc.map Prod.fst := by
      intro hmem
      have := (List.nodup_append.mp h).2.2
      exact this hmem (by simp)
    have h' : ((acc ++ [kv]).map Prod.fst ++ t.map Prod.fst).Nodup := by
      simpa [List.map_append, List.append_assoc] using h
    rw [List.foldl_cons, objSet_not_mem kv.1 kv.2 acc hk, ih (acc ++ [kv]) h']
    simp

/-- C29, as the code has it: for every form submission `x` whose fields have distinct
names, none of them `Saving`, and every start date that `convertToJSDate` converts to a
date, turning `x` into the stored shape with `transformExpense` and that entry back into a
card with `transformHistoryData` gives the values of `x` with the same names, amounts and
order for every field other than `saving`, followed by the amount of `saving` under the
name `Saving`. -/
theorem transform_round_trip (monthYear : JSDate → Int → String) (startDate : TimestampArg)
    (date : JSDate) (uid : String) (x : FormSubmission)
    (hdate : convertToJSDate startDate = Except.ok (some date))
    (hnodup : (x.values.map Prod.fst).Nodup) (hS : "Saving" ∉ x.values.map Prod.fst) :
    History.transformHistoryData monthYear [History.transformExpense x] startDate uid
      = some
          [ { history_id := none
              month := x.month
              month_name := monthYear date x.month
              id_user := uid
              values :=
                x.values.filter (fun kv => decide (kv.1 ≠ "saving"))
                  ++ [("Saving", objGet x.values "saving")] } ] := by
  have hsub : ((x.values.filter (fun kv => decide (kv.1 ≠ "saving"))).map Prod.fst).Sublist
      (x.values.map Prod.fst) := (List.filter_sublist _).map _
  have hn : ((x.values.filter (fun kv => decide (kv.1 ≠ "saving"))).map Prod.fst).Nodup :=
    hnodup.sublist hsub
  have hS' : "Saving" ∉ (x.values.filter (fun kv => decide (kv.1 ≠ "saving"))).map Prod.fst :=
    fun h => hS (hsub.subset h)
  have hfold : ((x.values.filter (fun kv => decide (kv.1 ≠ "saving"))).map
        (fun kv => ({ type := kv.1, expense := kv.2 } : StoredExpense))).foldl
        (fun acc exp => objSet acc exp.type exp.expense) []
      = x.values.filter (fun kv => decide (kv.1 ≠ "saving")) := by
    rw [List.foldl_map]
    have := foldl_objSet_append (x.values.filter (fun kv => decide (kv.1 ≠ "saving"))) []
      (by simpa using hn)
    simpa using this
  simp only [History.transformHistoryData, List.mapM_cons, List.mapM_nil,
    History.transformEntry, hdate, History.transformExpense, hfold,
    objSet_not_mem "Saving" _ _ hS']
  rfl

/-- Instance of the amended C29 on the sample submission. -/
theorem transform_round_trip_witness :
    History.transformHistoryData (fun _ _ => "January 2025")
        [History.transformExpense sampleSubmission] (TimestampArg.timestamp 1700000000 0) "u1"
      = some
          [ { history_id := none
              month := sampleSubmission.month
              month_name := "January 2025"
              id_user := "u1"
              values :=
                sampleSubmission.values.filter (fun kv => decide (kv.1 ≠ "saving"))
                  ++ [("Saving", objGet sampleSubmission.values "saving")] } ] :=
  transform_round_trip (fun _ _ => "January 2025") (TimestampArg.timestamp 1700000000 0)
    { seconds := 1700000000, nanoseconds := 0 } "u1" sampleSubmission rfl (by decide) (by decide)

/-- C29 fails as stated: the sample submission has the field `saving` with the amount 70;
after `transformExpense` and `transformHistoryData` the card has no field `saving` but a
field `Saving` with that amount, so its values differ from the values of the submission. -/
theorem transform_round_trip_counterexample :
    (History.transformHistoryData (fun _ _ => "January 2025")
        [History.transformExpense sampleSubmission] (TimestampArg.timestamp 1700000000 0)
        "u1").map (fun cards => cards.map HistoryCard.values)
      = some
          [ [ ("food", FieldValue.num 100), ("housing", FieldValue.num 200),
              ("health", FieldValue.num 30), ("transportation", FieldValue.num 40),
              ("university", FieldValue.num 50), ("non-essentials", FieldValue.num 60),
              ("Saving", FieldValue.num 70) ] ] ∧
      objGet sampleSubmission.values "saving" = FieldValue.num 70 ∧
      objGet
          [ ("food", FieldValue.num 100), ("housing", FieldValue.num 200),
            ("health", FieldValue.num 30), ("transportation", FieldValue.num 40),
            ("university", FieldValue.num 50), ("non-essentials", FieldValue.num 60),
            ("Saving", FieldValue.num 70) ] "saving"
        = FieldValue.undefined ∧
      (History.transformHistoryData (fun _ _ => "January 2025")
        [History.transformExpense sampleSubmission] (TimestampArg.timestamp 1700000000 0)
        "u1").map (fun cards => cards.map HistoryCard.values)
      ≠ some [sampleSubmission.values] := by
  decide!

end PocketUAI
